import Mathlib

/-!
Formal model of the agent-orchestration runtime: contracts (AgentResult),
circuit breaker, event bus, workflow model with its validator, and the
orchestrator execution engine (dispatch, step execution, the workflow loop).
Each definition is a shallow embedding of the corresponding Python source in
src/agents.  Timestamps are modelled as natural numbers passed explicitly to
the operations that read the clock; worker coroutines are modelled as pure
functions returning a duration together with either a result or a raised
exception.
-/

/-- Values carried in payloads, inputs and accumulated workflow data.
Models the Python dynamic values that flow through the engine: None,
booleans, numbers, strings, lists and dicts. -/
inductive Value where
  | vnone
  | vbool (b : Bool)
  | vnat (n : Nat)
  | vstr (s : String)
  | vlist (xs : List Value)
  | vdict (xs : List (String × Value))

/-- Python truthiness of a value (used by 'if step_result.data:' and
'if params:'). -/
def Value.truthy : Value → Bool
  | .vnone => false
  | .vbool b => b
  | .vnat n => n != 0
  | .vstr s => s != ""
  | .vlist xs => !xs.isEmpty
  | .vdict xs => !xs.isEmpty

/-- Dict lookup: Python dict.get.  Dicts are association lists whose first
match is the binding (insertion keeps keys unique, as Python dicts do). -/
def dget (d : List (String × Value)) (k : String) : Option Value :=
  (d.find? (fun p => p.1 == k)).map (fun p => p.2)

/-- Dict write: Python d[k] = v.  Replaces the first binding of the key or
appends a new one. -/
def dset : List (String × Value) → String → Value → List (String × Value)
  | [], k, v => [(k, v)]
  | (k1, v1) :: rest, k, v =>
      if k1 == k then (k, v) :: rest else (k1, v1) :: dset rest k v

/-- Python dict merge: start from base, write every entry of upd in order
(so upd overrides base on key clashes), as in a dict.update or unpacking. -/
def dict_update (base upd : List (String × Value)) : List (String × Value) :=
  upd.foldl (fun d kv => dset d kv.1 kv.2) base

/-- String prefix test on the underlying character list (str.startswith). -/
def strStarts (s p : String) : Bool := p.data.isPrefixOf s.data

/-- String suffix test on the underlying character list (str.endswith). -/
def strEnds (s p : String) : Bool := p.data.isSuffixOf s.data

/-- Drop the first n characters (the Python slice s[n:]). -/
def strDrop (s : String) (n : Nat) : String := ⟨s.data.drop n⟩

/-- Drop the last n characters (the Python slice s[:-n]). -/
def strDropRight (s : String) (n : Nat) : String := ⟨s.data.take (s.data.length - n)⟩

/-- First component before a dot: the Python value[..].split(".")[0]. -/
def ref_first (s : String) : String := ⟨(strDrop s 2).data.takeWhile (fun c => c != '.')⟩

/-- A raised Python exception, reduced to its type name and message. -/
structure PyExn where
  ty : String
  msg : String

/-- Outcome of one worker invocation (src/agents/core/agent_result.py).
Metrics and timestamps are not modelled; they feed no control flow. -/
structure AgentResult where
  success : Bool
  data : Value := .vnone
  errors : List String := []
  warnings : List String := []
  next_actions : List String := []
  tokens_used : Nat := 0
  error_type : Option String := none

/-- AgentResult.success_result: the success builder. -/
def success_result (data : Value) : AgentResult :=
  { success := true, data := data }

/-- AgentResult.failure_result: the failure builder with its default
follow-up actions. -/
def failure_result (error : String) (error_type : String) : AgentResult :=
  { success := false, errors := [error], error_type := some error_type,
    next_actions := ["retry", "manual_review"] }

/-- AgentResult.first_error rendered through the f-string that consumes it
(Python str(None) prints "None"). -/
def first_error_str (r : AgentResult) : String := r.errors.headD "None"

/-! ## Circuit breaker (src/agents/core/circuit_breaker.py) -/

/-- The three breaker states (CircuitState). `opened` is the OPEN state
(`open` is a Lean keyword), `half_open` is HALF_OPEN. -/
inductive CircuitState where
  | closed
  | opened
  | half_open
  deriving DecidableEq

/-- CircuitBreaker fields.  last_failure_time is an absolute timestamp in
seconds; the wall clock is passed to the operations that read it. -/
structure CircuitBreaker where
  failure_threshold : Nat := 5
  recovery_timeout : Nat := 60
  success_threshold : Nat := 2
  state : CircuitState := .closed
  failure_count : Nat := 0
  success_count : Nat := 0
  last_failure_time : Option Nat := none
  deriving DecidableEq

/-- CircuitBreaker._transition_to. -/
def transition_to (b : CircuitBreaker) (s : CircuitState) : CircuitBreaker :=
  match s with
  | .closed => { b with state := s, failure_count := 0, success_count := 0 }
  | .half_open => { b with state := s, success_count := 0 }
  | .opened => { b with state := s, success_count := 0 }

/-- CircuitBreaker.can_execute().  Returns the answer together with the
breaker, because the OPEN-to-HALF_OPEN probe transition happens as a side
effect of the check. -/
def can_execute (b : CircuitBreaker) (now : Nat) : Bool × CircuitBreaker :=
  match b.state with
  | .closed => (true, b)
  | .opened =>
      match b.last_failure_time with
      | some t =>
          if now - t > b.recovery_timeout then (true, transition_to b .half_open)
          else (false, b)
      | none => (false, b)
  | .half_open => (true, b)

/-- CircuitBreaker.record_success(). -/
def record_success (b : CircuitBreaker) : CircuitBreaker :=
  if b.state = .half_open then
    let b1 := { b with success_count := b.success_count + 1 }
    if b1.success_count ≥ b1.success_threshold then transition_to b1 .closed else b1
  else
    { b with failure_count := 0 }

/-- CircuitBreaker.record_failure(now). -/
def record_failure (b : CircuitBreaker) (now : Nat) : CircuitBreaker :=
  let b1 := { b with failure_count := b.failure_count + 1, last_failure_time := some now }
  match b1.state with
  | .half_open => transition_to b1 .opened
  | .closed =>
      if b1.failure_count ≥ b1.failure_threshold then transition_to b1 .opened else b1
  | .opened => b1

/-- CircuitBreaker.reset(). -/
def breaker_reset (b : CircuitBreaker) : CircuitBreaker :=
  { transition_to b .closed with last_failure_time := none }

/-- CircuitBreaker.force_open(now). -/
def force_open (b : CircuitBreaker) (now : Nat) : CircuitBreaker :=
  { transition_to b .opened with last_failure_time := some now }

/-- A sequence of record_failure calls at the given timestamps. -/
def apply_failures (b : CircuitBreaker) (ts : List Nat) : CircuitBreaker :=
  ts.foldl record_failure b

/-- A sequence of n record_success calls. -/
def apply_successes : CircuitBreaker → Nat → CircuitBreaker
  | b, 0 => b
  | b, n + 1 => apply_successes (record_success b) n

/-- CircuitBreakerRegistry: one breaker per worker id, shared defaults. -/
structure CBRegistry where
  breakers : List (String × CircuitBreaker) := []
  default_failure_threshold : Nat := 5
  default_recovery_timeout : Nat := 60

/-- First-match lookup in the breaker map (Python dict lookup). -/
def lookup_breaker (l : List (String × CircuitBreaker)) (name : String) :
    Option CircuitBreaker :=
  (l.find? (fun p => p.1 == name)).map (fun p => p.2)

/-- Store a breaker under a name (Python dict write). -/
def set_breaker : List (String × CircuitBreaker) → String → CircuitBreaker →
    List (String × CircuitBreaker)
  | [], n, cb => [(n, cb)]
  | (k, v) :: rest, n, cb =>
      if k == n then (n, cb) :: rest else (k, v) :: set_breaker rest n cb

/-- CircuitBreakerRegistry.get_or_create(name): the existing breaker, or a
fresh one built from the registry defaults and inserted. -/
def get_or_create (reg : CBRegistry) (name : String) : CircuitBreaker × CBRegistry :=
  match lookup_breaker reg.breakers name with
  | some cb => (cb, reg)
  | none =>
      let cb : CircuitBreaker :=
        { failure_threshold := reg.default_failure_threshold,
          recovery_timeout := reg.default_recovery_timeout }
      (cb, { reg with breakers := set_breaker reg.breakers name cb })

/-! ## Worker-side sandboxing (src/agents/core/base_agent.py) -/

/-- ScopeViolationError payload. -/
structure ScopeViolation where
  block_id : String
  attempted_path : String
  reason : String

/-- Path-separator normalization: file_path.replace("\\", "/"). -/
def normalize_path (p : String) : String :=
  ⟨p.data.map (fun c => if c == '\\' then '/' else c)⟩

/-- Shell-style glob matching as used by fnmatch on the block-rules
patterns: a star matches any character sequence (including separators, so
a double star behaves like a single one), a question mark matches one
character, anything else matches itself.  Character classes do not occur
in the rules documents and are not modelled. -/
def glob_match : List Char → List Char → Bool
  | [], s => s.isEmpty
  | '*' :: ps, s => (List.range (s.length + 1)).any (fun k => glob_match ps (s.drop k))
  | '?' :: ps, s =>
      match s with
      | [] => false
      | _ :: cs => glob_match ps cs
  | p :: ps, s =>
      match s with
      | [] => false
      | c :: cs => p == c && glob_match ps cs

/-- fnmatch(name, pattern) on whole strings. -/
def fnmatch (s pat : String) : Bool := glob_match pat.data s.data

/-- BaseAgent._check_scope: forbidden patterns are checked first and win;
otherwise the path must match some allowed pattern. -/
def check_scope (block_id : String) (allowed forbidden : List String)
    (file_path : String) : Except ScopeViolation Bool :=
  let normalized := normalize_path file_path
  match forbidden.find? (fun pat => fnmatch normalized pat) with
  | some pat =>
      .error { block_id := block_id, attempted_path := file_path,
               reason := "Path matches forbidden pattern: " ++ pat }
  | none =>
      if allowed.any (fun pat => fnmatch normalized pat) then .ok true
      else
        .error { block_id := block_id, attempted_path := file_path,
                 reason := "Path not in allowed scope" }

/-- TokenLimitExceededError payload. -/
structure TokenLimitExceeded where
  used : Nat
  limit : Nat
  deriving DecidableEq

/-- The token-accounting state of a worker instance. -/
structure TokenState where
  tokens_used : Nat := 0
  token_limit : Nat := 50000
  deriving DecidableEq

/-- BaseAgent._track_tokens(tokens): the counter is incremented first (the
mutation persists), then the limit is checked strictly. -/
def track_tokens (st : TokenState) (tokens : Nat) :
    TokenState × Option TokenLimitExceeded :=
  let st1 := { st with tokens_used := st.tokens_used + tokens }
  if st1.tokens_used > st1.token_limit then
    (st1, some { used := st1.tokens_used, limit := st1.token_limit })
  else
    (st1, none)

/-! ## Workers and the orchestrator (src/agents/orchestrator/orchestrator_agent.py) -/

/-- A registered worker: its declared capabilities and its execute
behaviour.  The behaviour maps the input dict to the coroutine's running
time (seconds) plus either the returned AgentResult or a raised
exception. -/
structure Agent where
  capabilities : List String
  run : List (String × Value) → Nat × Except PyExn AgentResult

/-- AgentRegistry.get_agent_safe: the registered worker, or none. -/
def get_agent_safe (reg : List (String × Agent)) (block_id : String) : Option Agent :=
  (reg.find? (fun p => p.1 == block_id)).map (fun p => p.2)

/-- Orchestrator configuration and shared mutable state: the worker
registry, the breaker registry, and the relevant OrchestratorConfig
fields. -/
structure Orchestrator where
  enable_circuit_breaker : Bool := true
  default_timeout : Nat := 300
  circuit_breakers : CBRegistry := {}
  registry : List (String × Agent) := []

/-- Record a dispatch outcome into the target worker's breaker, exactly as
the post-invocation block of dispatch and _execute_step does (guarded by
enable_circuit_breaker; the breaker is looked up again via
get_or_create). -/
def record_outcome (o : Orchestrator) (name : String) (success : Bool) (now : Nat) :
    Orchestrator :=
  if o.enable_circuit_breaker then
    let pr := get_or_create o.circuit_breakers name
    let cb := if success then record_success pr.1 else record_failure pr.1 now
    { o with circuit_breakers := { pr.2 with breakers := set_breaker pr.2.breakers name cb } }
  else o

/-- The circuit-breaker gate at the top of dispatch and _execute_step: when
breakers are enabled, get_or_create the target's breaker and ask
can_execute (whose probe transition is stored back).  Returns the blocking
failure result when execution is refused. -/
def breaker_gate (o : Orchestrator) (target : String) (now : Nat) :
    Option AgentResult × Orchestrator :=
  if o.enable_circuit_breaker then
    let pr := get_or_create o.circuit_breakers target
    let cr := can_execute pr.1 now
    let o1 := { o with
      circuit_breakers := { pr.2 with breakers := set_breaker pr.2.breakers target cr.2 } }
    if cr.1 then (none, o1)
    else
      (some (failure_result ("Circuit breaker open for " ++ target)
        "CircuitBreakerOpenError"), o1)
  else (none, o)

/-- OrchestratorAgent.dispatch(command, target_block, params): breaker
gate, registry lookup, capability check, then the worker invocation with
every exception converted into a failure result and the outcome recorded
into the breaker. -/
def dispatch (o : Orchestrator) (command target_block : String)
    (params : List (String × Value)) (now : Nat) : AgentResult × Orchestrator :=
  match breaker_gate o target_block now with
  | (some r, o1) => (r, o1)
  | (none, o1) =>
    match get_agent_safe o1.registry target_block with
    | none =>
        (failure_result ("Agent not found: " ++ target_block) "AgentNotFoundError", o1)
    | some agent =>
        if agent.capabilities.contains command then
          let input := dict_update [("command", .vstr command)] params
          match (agent.run input).2 with
          | .ok r => (r, record_outcome o1 target_block r.success now)
          | .error e =>
              (failure_result e.msg e.ty, record_outcome o1 target_block false now)
        else
          (failure_result ("Agent " ++ target_block ++ " does not have capability: "
            ++ command) "CapabilityNotFoundError", o1)

/-! ## Workflow model (src/agents/orchestrator/workflow_parser.py) -/

/-- WorkflowStep: one declarative step. -/
structure WorkflowStep where
  id : String
  block_id : String
  action : String
  inputs : List (String × Value) := []
  outputs : List String := []
  on_failure : String := "abort"
  timeout : Option Nat := none
  token_budget : Option Nat := none
  parallel : Bool := false
  condition : Option String := none

/-- A lifecycle hook entry is a small dict, e.g. a log template or a
notify payload. -/
abbrev Hook := List (String × Value)

/-- WorkflowHooks: the three lifecycle action lists. -/
structure WorkflowHooks where
  on_start : List Hook := []
  on_complete : List Hook := []
  on_error : List Hook := []

/-- Workflow: the parsed declarative definition. -/
structure Workflow where
  id : String
  name : String
  version : String := "1.0"
  description : String := ""
  steps : List WorkflowStep := []
  hooks : WorkflowHooks := {}
  context_isolation : Bool := true
  max_tokens_per_step : Nat := 50000

/-- The four legal on_failure values. -/
def valid_failures : List String := ["abort", "skip", "rollback", "continue"]

/-- The variable-reference pass of WorkflowParser.validate: for every step,
every top-level string input starting with the reference opener is split at
its first dot and the resulting step id is required to be a step id of the
workflow (the id set built by the preceding pass, which contains every
step's id). -/
def ref_errors (w : Workflow) : List String :=
  let all_ids := w.steps.map (fun s => s.id)
  w.steps.foldl (fun errs step =>
    errs ++ step.inputs.foldl (fun es kv =>
      match kv.2 with
      | .vstr s =>
          if strStarts s "$\x7b" then
            let rid := ref_first s
            if all_ids.contains rid then es
            else es ++ ["Step \x27" ++ step.id ++ "\x27 references unknown step: " ++ rid]
          else es
      | _ => es) []) []

/-- WorkflowParser.validate(workflow): the list of human-readable problems,
in the order the source emits them. -/
def validate (w : Workflow) : List String :=
  let e0 : List String := if w.steps.isEmpty then ["Workflow has no steps"] else []
  let loop1 := w.steps.foldl (fun (p : List String × List String) step =>
    let errs := p.1 ++
      (if p.2.contains step.id then ["Duplicate step ID: " ++ step.id] else [])
    let seen := p.2 ++ [step.id]
    let errs := errs ++
      (if step.block_id == "" then ["Step \x27" ++ step.id ++ "\x27 missing block_id"] else [])
    let errs := errs ++
      (if step.action == "" then ["Step \x27" ++ step.id ++ "\x27 missing action"] else [])
    let errs := errs ++
      (if valid_failures.contains step.on_failure then []
       else ["Step \x27" ++ step.id ++ "\x27 has invalid on_failure: " ++ step.on_failure])
    (errs, seen)) (e0, [])
  loop1.1 ++ ref_errors w

/-! ## The execution engine -/

/-- An event on the bus (src/agents/core/event_bus.py); generated ids and
timestamps are not modelled. -/
structure Event where
  type : String
  source_block : String
  data : Value := .vnone
  correlation_id : Option String := none

mutual

/-- One value of OrchestratorAgent._resolve_inputs: a string of the form
of a variable reference is looked up in the accumulated data (missing
references resolve to None), a nested dict is resolved recursively,
anything else passes through. -/
def resolveOne (acc : List (String × Value)) : Value → Value
  | .vstr s =>
      if strStarts s "$\x7b" && strEnds s "\x7d" then
        (dget acc (strDropRight (strDrop s 2) 1)).getD .vnone
      else .vstr s
  | .vdict d => .vdict (resolve_inputs acc d)
  | v => v

/-- OrchestratorAgent._resolve_inputs(inputs, workflow_context). -/
def resolve_inputs (acc : List (String × Value)) :
    List (String × Value) → List (String × Value)
  | [] => []
  | (k, v) :: rest => (k, resolveOne acc v) :: resolve_inputs acc rest

end

/-- OrchestratorAgent._evaluate_condition(condition, workflow_context):
a reference is true iff the value is present, not None, and, for a
collection, non-empty; any non-reference condition is true. -/
def evaluate_condition (condition : String) (acc : List (String × Value)) : Bool :=
  if strStarts condition "$\x7b" && strEnds condition "\x7d" then
    match (dget acc (strDropRight (strDrop condition 2) 1)).getD .vnone with
    | .vnone => false
    | .vlist xs => !xs.isEmpty
    | .vdict xs => !xs.isEmpty
    | _ => true
  else true

/-- The loop guard 'if step.condition and not evaluate_condition(...)':
a step is skipped when it has a (truthy, i.e. non-empty) condition that
evaluates false. -/
def step_skipped (step : WorkflowStep) (acc : List (String × Value)) : Bool :=
  match step.condition with
  | some c => c != "" && !evaluate_condition c acc
  | none => false

/-- OrchestratorAgent._execute_hooks: log hooks only log; notify hooks
publish a workflow.notification event carrying the notify payload. -/
def hook_events (hooks : List Hook) : List Event :=
  hooks.filterMap (fun h =>
    if h.any (fun p => p.1 == "log") then none
    else
      match dget h "notify" with
      | some d => some { type := "workflow.notification", source_block := "ORCHESTRATOR",
                         data := d }
      | none => none)

/-- OrchestratorAgent._execute_step(step, workflow_context, max_tokens):
breaker gate, registry lookup, input resolution plus the command key, then
the worker invocation under the step deadline (step timeout falling back
to the configured default); timeouts and exceptions are recorded as
breaker failures and converted to failure results. -/
def execute_step (o : Orchestrator) (step : WorkflowStep)
    (accumulated : List (String × Value)) (_max_tokens : Nat) (now : Nat) :
    AgentResult × Orchestrator :=
  match breaker_gate o step.block_id now with
  | (some r, o1) => (r, o1)
  | (none, o1) =>
    match get_agent_safe o1.registry step.block_id with
    | none =>
        (failure_result ("Agent not found: " ++ step.block_id) "AgentNotFoundError", o1)
    | some agent =>
        let input := dset (resolve_inputs accumulated step.inputs) "command"
          (.vstr step.action)
        let timeout_seconds := step.timeout.getD o.default_timeout
        let rr := agent.run input
        if rr.1 > timeout_seconds then
          (failure_result ("Step " ++ step.id ++ " timed out after "
             ++ toString timeout_seconds ++ "s") "TimeoutError",
           record_outcome o1 step.block_id false now)
        else
          match rr.2 with
          | .ok r => (r, record_outcome o1 step.block_id r.success now)
          | .error e =>
              (failure_result e.msg e.ty, record_outcome o1 step.block_id false now)

/-- Step 4 of the loop: on success, copy each declared output key present
in the (dict) result payload into the accumulated data under
"stepId.outputKey". -/
def store_outputs (acc : List (String × Value)) (step : WorkflowStep)
    (r : AgentResult) : List (String × Value) :=
  if r.success && r.data.truthy then
    match r.data with
    | .vdict d =>
        step.outputs.foldl (fun a k =>
          match dget d k with
          | some v => dset a (step.id ++ "." ++ k) v
          | none => a) acc
    | _ => acc
  else acc

/-- The run-level error string recorded for a failing step
(f-string of first_error; Python prints None as "None"). -/
def fail_msg (step : WorkflowStep) (r : AgentResult) : String :=
  "Step " ++ step.id ++ " failed: " ++ first_error_str r

/-- The workflow.step.completed event of loop step 5. -/
def step_completed_event (wf_id step_id : String) (success : Bool) : Event :=
  { type := "workflow.step.completed", source_block := "ORCHESTRATOR",
    data := .vdict [("workflow_id", .vstr wf_id), ("step_id", .vstr step_id),
                    ("success", .vbool success)] }

/-- The workflow.rollback event of _rollback_workflow. -/
def rollback_event (wf_id failed_step : String) : Event :=
  { type := "workflow.rollback", source_block := "ORCHESTRATOR",
    data := .vdict [("workflow_id", .vstr wf_id), ("failed_step", .vstr failed_step)] }

/-- What happened to one step of a run: skipped by its condition, or
executed (recording the accumulated data the step execution received and
the result it produced). -/
inductive TraceEntry where
  | skipped (id : String)
  | executed (step : WorkflowStep) (acc : List (String × Value)) (result : AgentResult)

/-- How the step loop ended. -/
inductive RunOutcome where
  | finished
  | aborted (id : String)
  | rolled_back (id : String)

/-- Step-result map write (WorkflowContext.save_step_result). -/
def set_result : List (String × AgentResult) → String → AgentResult →
    List (String × AgentResult)
  | [], k, v => [(k, v)]
  | (k1, v1) :: rest, k, v =>
      if k1 == k then (k, v) :: rest else (k1, v1) :: set_result rest k v

/-- The mutable per-run state threaded through the loop: the orchestrator
shared state, the WorkflowContext fields the loop touches, the events
published so far and the execution trace. -/
structure RunState where
  orch : Orchestrator
  accumulated : List (String × Value) := []
  step_results : List (String × AgentResult) := []
  errors : List String := []
  events : List Event := []
  trace : List TraceEntry := []
  current_step : Nat := 0

/-- The step loop of OrchestratorAgent.execute_workflow (step 5 of the
source): condition gate, step execution, result save, output
accumulation, failure policy (abort and rollback return, after the
on_error hooks; skip and continue record the error and proceed), then the
step-completed event for the outcomes that reach it. -/
def run_steps (wf : Workflow) (wf_id : String) (now : Nat) :
    List WorkflowStep → RunState → RunOutcome × RunState
  | [], st => (.finished, st)
  | step :: rest, st =>
    let st0 := { st with current_step := st.current_step + 1 }
    if step_skipped step st0.accumulated then
      run_steps wf wf_id now rest { st0 with trace := st0.trace ++ [TraceEntry.skipped step.id] }
    else
      let er := execute_step st0.orch step st0.accumulated wf.max_tokens_per_step now
      let r := er.1
      let st1 := { st0 with
        orch := er.2,
        step_results := set_result st0.step_results step.id r,
        trace := st0.trace ++ [TraceEntry.executed step st0.accumulated r],
        accumulated := store_outputs st0.accumulated step r }
      if r.success then
        run_steps wf wf_id now rest
          { st1 with events := st1.events ++ [step_completed_event wf_id step.id r.success] }
      else
        let st2 := { st1 with errors := st1.errors ++ [fail_msg step r] }
        if step.on_failure == "abort" then
          (RunOutcome.aborted step.id,
           { st2 with events := st2.events ++ hook_events wf.hooks.on_error })
        else if step.on_failure == "rollback" then
          (RunOutcome.rolled_back step.id,
           { st2 with events := st2.events ++ [rollback_event wf_id step.id]
              ++ hook_events wf.hooks.on_error })
        else
          run_steps wf wf_id now rest
            { st2 with events := st2.events ++ [step_completed_event wf_id step.id r.success] }

/-- The outcome of the workflow loader (WorkflowParser.load seen from
execute_workflow): a parsed workflow, a missing file, or a parse error. -/
inductive LoadOutcome where
  | ok (w : Workflow)
  | not_found
  | parse_error (msg : String)

/-- Everything observable about one execute_workflow call: the returned
result, the orchestrator state left behind, the final run status, the
run-level errors, the events published, and the per-step trace. -/
structure WorkflowRun where
  result : AgentResult
  orch : Orchestrator
  status : String
  errors : List String
  events : List Event
  trace : List TraceEntry

/-- OrchestratorAgent.execute_workflow(workflow_name, params): load and
validate (failures are terminal results before any step runs), seed the
accumulated data from params, run the on_start hooks, drive the step
loop, and translate its outcome into the terminal result (on_error hook
events are appended inside the loop on abort and rollback, matching the
source order; on_complete hooks run after a full pass).  wf_id stands for
the generated WorkflowContext uuid. -/
def execute_workflow (o : Orchestrator) (workflow_name : String) (load : LoadOutcome)
    (params : List (String × Value)) (wf_id : String) (now : Nat) : WorkflowRun :=
  match load with
  | .not_found =>
      { result := failure_result ("Workflow not found: " ++ workflow_name)
          "WorkflowNotFoundError",
        orch := o, status := "", errors := [], events := [], trace := [] }
  | .parse_error m =>
      { result := failure_result ("Failed to parse workflow: " ++ m)
          "WorkflowParseError",
        orch := o, status := "", errors := [], events := [], trace := [] }
  | .ok w =>
    let verrs := validate w
    if !verrs.isEmpty then
      { result := failure_result ("Workflow validation failed: "
          ++ String.intercalate ", " verrs) "WorkflowValidationError",
        orch := o, status := "", errors := [], events := [], trace := [] }
    else
      let st0 : RunState :=
        { orch := o, accumulated := dict_update [] params,
          events := hook_events w.hooks.on_start }
      let res := run_steps w wf_id now w.steps st0
      match res.1 with
      | .finished =>
          { result := success_result (.vdict [("workflow_id", .vstr wf_id),
              ("accumulated_data", .vdict res.2.accumulated)]),
            orch := res.2.orch, status := "completed", errors := res.2.errors,
            events := res.2.events ++ hook_events w.hooks.on_complete,
            trace := res.2.trace }
      | .aborted sid =>
          { result := failure_result ("Workflow aborted at step " ++ sid)
              "WorkflowAbortedError",
            orch := res.2.orch, status := "failed", errors := res.2.errors,
            events := res.2.events, trace := res.2.trace }
      | .rolled_back sid =>
          { result := failure_result ("Workflow rolled back at step " ++ sid)
              "WorkflowRollbackError",
            orch := res.2.orch, status := "failed", errors := res.2.errors,
            events := res.2.events, trace := res.2.trace }

/-! ## Event bus request-response (src/agents/core/event_bus.py) -/

/-- A pending one-shot waiter (an asyncio future): not yet done, or done
with its result value. -/
abbrev PendingFut := Option Value

/-- Future-map lookup (the _pending_responses dict). -/
def fut_get (l : List (String × PendingFut)) (k : String) : Option PendingFut :=
  (l.find? (fun p => p.1 == k)).map (fun p => p.2)

/-- Future-map write. -/
def fut_set : List (String × PendingFut) → String → PendingFut →
    List (String × PendingFut)
  | [], k, v => [(k, v)]
  | (k1, v1) :: rest, k, v =>
      if k1 == k then (k, v) :: rest else (k1, v1) :: fut_set rest k v

/-- Future-map removal (the dict.pop in the finally block). -/
def fut_pop (l : List (String × PendingFut)) (k : String) :
    List (String × PendingFut) :=
  l.filter (fun p => p.1 != k)

/-- The event-bus shared state: the pending response futures and the
bounded event history.  Handlers are scheduled fire-and-forget and do not
touch this state, so they are not modelled here. -/
structure BusState where
  pending : List (String × PendingFut) := []
  history : List Event := []
  max_history : Nat := 1000

/-- EventBus.publish(event): append to the bounded history, schedule the
handlers, then resolve a pending not-yet-done future keyed by the event's
(truthy) correlation id with the event's data. -/
def publish (bus : BusState) (e : Event) : BusState :=
  let hist := bus.history ++ [e]
  let hist := if hist.length > bus.max_history
              then hist.drop (hist.length - bus.max_history) else hist
  match e.correlation_id with
  | some c =>
      if c != "" then
        match fut_get bus.pending c with
        | some none => { bus with history := hist, pending := fut_set bus.pending c (some e.data) }
        | _ => { bus with history := hist }
      else { bus with history := hist }
  | none => { bus with history := hist }

/-- The await on the waiter future: return as soon as the future is done;
otherwise consume the next event arriving on the bus (each delivered
through publish); when no event remains before the deadline, time out. -/
def wait_for_response (c : String) : BusState → List Event → Option Value × BusState
  | bus, later =>
    match fut_get bus.pending c with
    | some (some v) => (some v, bus)
    | _ =>
        match later with
        | [] => (none, bus)
        | e :: rest => wait_for_response c (publish bus e) rest

/-- EventBus.publish_and_wait(event, timeout): ensure a (truthy)
correlation id (fresh_id stands for the generated uuid), register a fresh
one-shot waiter under it, publish the event, await the waiter (later is
the stream of events published before the deadline; an exhausted stream
is the timeout, returning no response), and finally drop the waiter. -/
def publish_and_wait (bus : BusState) (e : Event) (fresh_id : String)
    (later : List Event) : Option Value × BusState :=
  let e1 :=
    match e.correlation_id with
    | some c => if c != "" then e else { e with correlation_id := some fresh_id }
    | none => { e with correlation_id := some fresh_id }
  let c := e1.correlation_id.getD fresh_id
  let bus1 := { bus with pending := fut_set bus.pending c none }
  let bus2 := publish bus1 e1
  let res := wait_for_response c bus2 later
  (res.1, { res.2 with pending := fut_pop res.2.pending c })

/-! ## Claims about token accounting and scope checking -/

/-- C10: _track_tokens(n) first adds n to the running total and then
raises TokenLimitExceededError exactly when the new total strictly
exceeds the ceiling; a total equal to the ceiling does not raise, and the
counter keeps the overflowing addition when the error is raised. -/
theorem claim_C10 (st : TokenState) (n : Nat) :
    (track_tokens st n).1.tokens_used = st.tokens_used + n ∧
    (track_tokens st n).1.token_limit = st.token_limit ∧
    (track_tokens st n).2 =
      (if st.tokens_used + n > st.token_limit
       then some { used := st.tokens_used + n, limit := st.token_limit }
       else none) := by
  unfold track_tokens
  by_cases h : st.tokens_used + n > st.token_limit <;> simp [h]

/-- C8: the scope check rejects a path matching any forbidden glob even if
an allowed glob also matches; a path matching no forbidden glob is
accepted iff some allowed glob matches it. -/
theorem claim_C8 (bid : String) (allowed forbidden : List String) (path : String) :
    (forbidden.any (fun pat => fnmatch (normalize_path path) pat) = true →
      ∃ sv, check_scope bid allowed forbidden path = .error sv) ∧
    (forbidden.any (fun pat => fnmatch (normalize_path path) pat) = false →
      ((check_scope bid allowed forbidden path = .ok true) ↔
        allowed.any (fun pat => fnmatch (normalize_path path) pat) = true)) := by
  constructor
  · intro h
    rcases List.any_eq_true.mp h with ⟨pat, hmem, hpat⟩
    cases hfind : forbidden.find? (fun pat => fnmatch (normalize_path path) pat) with
    | none =>
        exact absurd hpat (by simpa using List.find?_eq_none.mp hfind pat hmem)
    | some p =>
        refine ⟨{ block_id := bid, attempted_path := path,
                  reason := "Path matches forbidden pattern: " ++ p }, ?_⟩
        simp [check_scope, hfind]
  · intro h
    have hnone : forbidden.find? (fun pat => fnmatch (normalize_path path) pat) = none := by
      rw [List.find?_eq_none]
      intro x hx
      have := List.any_eq_false.mp h x hx
      simpa using this
    by_cases ha : allowed.any (fun pat => fnmatch (normalize_path path) pat) = true
    · simp [check_scope, hnone, ha]
    · have ha' : allowed.any (fun pat => fnmatch (normalize_path path) pat) = false := by
        simpa using ha
      simp [check_scope, hnone, ha']

/-- Closed instance of C8: a path matching both a forbidden and an allowed
glob is rejected; a clean path under the allowed glob is accepted. -/
theorem claim_C8_witness :
    (["**/.env"].any (fun pat => fnmatch (normalize_path "blocks/dummy/.env") pat) = true) ∧
    (∃ sv, check_scope "BLOCK_DUMMY" ["blocks/dummy/**"] ["**/.env"] "blocks/dummy/.env"
      = .error sv) ∧
    (["**/.env"].any (fun pat => fnmatch (normalize_path "blocks/dummy/a.py") pat) = false) ∧
    (check_scope "BLOCK_DUMMY" ["blocks/dummy/**"] ["**/.env"] "blocks/dummy/a.py" = .ok true) :=
  ⟨by decide,
   (claim_C8 "BLOCK_DUMMY" ["blocks/dummy/**"] ["**/.env"] "blocks/dummy/.env").1 (by decide),
   by decide,
   ((claim_C8 "BLOCK_DUMMY" ["blocks/dummy/**"] ["**/.env"] "blocks/dummy/a.py").2
      (by decide)).mpr (by decide)⟩

/-! ## C4: publish_and_wait resolves on the request event itself -/

/-- The request event of the C4 failing input: a correlated request whose
payload is the string REQ, published with no responder. -/
def c4_request : Event :=
  { type := "request.storage.save", source_block := "CALLER",
    data := .vstr "REQ", correlation_id := some "c1" }

/-- A genuine response event carrying the same correlation id and the
payload RESP. -/
def c4_response : Event :=
  { type := "response.c1", source_block := "BLOCK_STORAGE",
    data := .vstr "RESP", correlation_id := some "c1" }

/-- C4: the waiter is registered before the request event is published and
publish resolves any pending waiter keyed by the event's correlation id,
so publish_and_wait resolves immediately with the request's own payload:
with no response arriving it does not return the no-response value, and a
genuine later response is ignored. -/
theorem claim_C4_code_bug :
    (publish_and_wait {} c4_request "generated-uuid" []).1 = some (.vstr "REQ") ∧
    (publish_and_wait {} c4_request "generated-uuid" [c4_response]).1
      = some (.vstr "REQ") :=
  ⟨rfl, rfl⟩

/-! ## C3: the circuit-breaker state machine -/

/-- record_failure always stamps the failure time with the call's clock. -/
theorem record_failure_stamps (b : CircuitBreaker) (t : Nat) :
    (record_failure b t).last_failure_time = some t := by
  unfold record_failure transition_to
  cases b.state <;> simp <;> split <;> simp

/-- record_failure leaves the thresholds and the recovery timeout alone. -/
theorem record_failure_params (b : CircuitBreaker) (t : Nat) :
    (record_failure b t).failure_threshold = b.failure_threshold ∧
    (record_failure b t).recovery_timeout = b.recovery_timeout := by
  unfold record_failure transition_to
  cases b.state <;> simp <;> split <;> simp

/-- record_failure keeps an OPEN breaker OPEN. -/
theorem record_failure_opened (b : CircuitBreaker) (t : Nat)
    (h : b.state = .opened) : (record_failure b t).state = .opened := by
  unfold record_failure transition_to
  simp [h]

/-- A failure burst cannot close an OPEN breaker. -/
theorem apply_failures_opened (ts : List Nat) (b : CircuitBreaker)
    (h : b.state = .opened) : (apply_failures b ts).state = .opened := by
  induction ts generalizing b with
  | nil => exact h
  | cons t ts ih =>
      exact ih (record_failure b t) (record_failure_opened b t h)

/-- The last failure of a burst is the one stamped. -/
theorem apply_failures_last (ts : List Nat) (b : CircuitBreaker) (tl : Nat) :
    (apply_failures b (ts ++ [tl])).last_failure_time = some tl := by
  unfold apply_failures
  rw [List.foldl_append]
  exact record_failure_stamps _ tl

/-- The recovery timeout survives a failure burst. -/
theorem apply_failures_params (ts : List Nat) (b : CircuitBreaker) :
    (apply_failures b ts).recovery_timeout = b.recovery_timeout := by
  induction ts generalizing b with
  | nil => rfl
  | cons t ts ih =>
      have := (record_failure_params b t).2
      simpa [apply_failures, this] using ih (record_failure b t)

/-- Enough failures from CLOSED drive the breaker OPEN. -/
theorem apply_failures_opens (ts : List Nat) (b : CircuitBreaker)
    (hc : b.state = .closed)
    (hn : b.failure_count + ts.length ≥ b.failure_threshold)
    (hne : ts ≠ []) : (apply_failures b ts).state = .opened := by
  induction ts generalizing b with
  | nil => exact absurd rfl hne
  | cons t ts ih =>
      by_cases hth : b.failure_count + 1 ≥ b.failure_threshold
      · have hopen : (record_failure b t).state = .opened := by
          unfold record_failure transition_to
          simp [hc, hth]
        exact apply_failures_opened ts _ hopen
      · have hcl : (record_failure b t).state = .closed := by
          unfold record_failure transition_to
          simp [hc, hth]
        have hfc : (record_failure b t).failure_count = b.failure_count + 1 := by
          unfold record_failure transition_to
          simp [hc, hth]
        have hft : (record_failure b t).failure_threshold = b.failure_threshold :=
          (record_failure_params b t).1
        have hne2 : ts ≠ [] := by
          intro he
          subst he
          simp at hn
          omega
      /- the remaining failures still number enough to reach the threshold -/
        have hn2 : (record_failure b t).failure_count + ts.length
            ≥ (record_failure b t).failure_threshold := by
          rw [hfc, hft]
          simp at hn
          omega
        exact ih (record_failure b t) hcl hn2 hne2

/-- record_success on a CLOSED breaker with both counters at zero is the
identity. -/
theorem record_success_closed_fixed (b : CircuitBreaker)
    (hc : b.state = .closed) (hf : b.failure_count = 0) :
    record_success b = b := by
  unfold record_success
  rw [hc]
  simp
  cases b
  simp_all

/-- Successes reaching the success threshold from HALF_OPEN close the
breaker with both counters reset. -/
theorem apply_successes_closes (n : Nat) (b : CircuitBreaker)
    (hh : b.state = .half_open)
    (hs : b.success_count + n = b.success_threshold)
    (hn : 1 ≤ n) :
    (apply_successes b n).state = .closed ∧
    (apply_successes b n).failure_count = 0 ∧
    (apply_successes b n).success_count = 0 := by
  induction n generalizing b with
  | zero => omega
  | succ k ih =>
      by_cases hk : k = 0
      · subst hk
        have hb1 : record_success b = transition_to
            { b with success_count := b.success_count + 1 } .closed := by
          unfold record_success
          rw [hh]
          simp
          omega
        simp [apply_successes, hb1, transition_to]
      · have hlt : b.success_count + 1 < b.success_threshold := by omega
        have hb1 : record_success b = { b with success_count := b.success_count + 1 } := by
          unfold record_success
          rw [hh]
          simp
          omega
        have := ih { b with success_count := b.success_count + 1 }
          (by simpa using hh) (by simp; omega) (by omega)
        simpa [apply_successes, hb1] using this

/-- C3: the circuit breaker follows its state-machine contract.  First,
any record_failure burst whose count reaches the failure threshold while
CLOSED opens the breaker, and can_execute refuses while the recovery
timeout has not elapsed since the stamped last failure.  Second, the
first can_execute after the timeout elapses performs the OPEN to
HALF_OPEN transition and allows the call.  Third, a record_failure in
HALF_OPEN reverts to OPEN.  Fourth, success_threshold record_success
calls in HALF_OPEN close the breaker with both counters reset to zero. -/
theorem claim_C3 :
    (∀ (b : CircuitBreaker) (ts : List Nat) (tl : Nat),
      b.state = .closed →
      b.failure_count + (ts ++ [tl]).length ≥ b.failure_threshold →
      (apply_failures b (ts ++ [tl])).state = .opened ∧
      (apply_failures b (ts ++ [tl])).last_failure_time = some tl ∧
      (∀ now : Nat, now - tl ≤ b.recovery_timeout →
        can_execute (apply_failures b (ts ++ [tl])) now
          = (false, apply_failures b (ts ++ [tl])))) ∧
    (∀ (b : CircuitBreaker) (t now : Nat),
      b.state = .opened → b.last_failure_time = some t →
      now - t > b.recovery_timeout →
      can_execute b now = (true, transition_to b .half_open) ∧
      (transition_to b .half_open).state = .half_open) ∧
    (∀ (b : CircuitBreaker) (t : Nat), b.state = .half_open →
      (record_failure b t).state = .opened) ∧
    (∀ (b : CircuitBreaker), b.state = .half_open → b.success_count = 0 →
      1 ≤ b.success_threshold →
      (apply_successes b b.success_threshold).state = .closed ∧
      (apply_successes b b.success_threshold).failure_count = 0 ∧
      (apply_successes b b.success_threshold).success_count = 0) := by
  refine ⟨?_, ?_, ?_, ?_⟩
  · intro b ts tl hc hn
    have hopen := apply_failures_opens (ts ++ [tl]) b hc hn (by simp)
    have hlast := apply_failures_last ts b tl
    refine ⟨hopen, hlast, ?_⟩
    intro now hnow
    have hrt := apply_failures_params (ts ++ [tl]) b
    unfold can_execute
    rw [hopen, hlast, hrt]
    simp
    omega
  · intro b t now ho hl hgt
    constructor
    · unfold can_execute
      rw [ho, hl]
      simp [hgt]
    · simp [transition_to]
  · intro b t hh
    unfold record_failure transition_to
    simp [hh]
  · intro b hh hs hth
    exact apply_successes_closes b.success_threshold b hh (by omega) hth

/-- A concrete breaker with failure threshold 2, recovery timeout 60 and
success threshold 2. -/
def c3_b0 : CircuitBreaker :=
  { failure_threshold := 2, recovery_timeout := 60, success_threshold := 2 }

/-- The concrete breaker after two failures at times 10 and 20. -/
def c3_b1 : CircuitBreaker := apply_failures c3_b0 [10, 20]

/-- The concrete breaker probed into HALF_OPEN. -/
def c3_b2 : CircuitBreaker := transition_to c3_b1 .half_open

/-- Closed instance of C3 on the concrete breaker: two failures open it,
can_execute refuses at time 50, allows (and probes) at time 100, a
failure in HALF_OPEN reopens, and two successes in HALF_OPEN close with
counters reset. -/
theorem claim_C3_witness :
    (apply_failures c3_b0 ([10] ++ [20])).state = .opened ∧
    (apply_failures c3_b0 ([10] ++ [20])).last_failure_time = some 20 ∧
    can_execute (apply_failures c3_b0 ([10] ++ [20])) 50
      = (false, apply_failures c3_b0 ([10] ++ [20])) ∧
    can_execute c3_b1 100 = (true, transition_to c3_b1 .half_open) ∧
    (transition_to c3_b1 .half_open).state = .half_open ∧
    (record_failure c3_b2 200).state = .opened ∧
    (apply_successes c3_b2 c3_b2.success_threshold).state = .closed ∧
    (apply_successes c3_b2 c3_b2.success_threshold).failure_count = 0 ∧
    (apply_successes c3_b2 c3_b2.success_threshold).success_count = 0 := by
  obtain ⟨p1, p2, p3, p4⟩ := claim_C3
  obtain ⟨h1, h2, h3⟩ := p1 c3_b0 [10] 20 (by decide) (by decide)
  obtain ⟨h4, h5⟩ := p2 c3_b1 20 100 (by decide) (by decide) (by decide)
  have h6 := p3 c3_b2 200 (by decide)
  obtain ⟨h7, h8, h9⟩ := p4 c3_b2 (by decide) (by decide) (by decide)
  exact ⟨h1, h2, h3 50 (by decide), h4, h5, h6, h7, h8, h9⟩

/-! ## C2: dispatch error handling -/

/-- A refused can_execute leaves the breaker untouched. -/
theorem can_execute_false_fixed (b : CircuitBreaker) (now : Nat)
    (h : (can_execute b now).1 = false) : (can_execute b now).2 = b := by
  unfold can_execute at h ⊢
  cases hs : b.state with
  | closed => simp [hs] at h
  | half_open => simp [hs] at h
  | opened =>
      cases hl : b.last_failure_time with
      | none => simp [hs, hl]
      | some t =>
          by_cases he : now - t > b.recovery_timeout
          · simp [hs, hl, he] at h
          · simp [hs, hl, he]

/-- Writing back the looked-up breaker is a no-op on the breaker map. -/
theorem set_breaker_self (l : List (String × CircuitBreaker)) (n : String)
    (cb : CircuitBreaker) (h : lookup_breaker l n = some cb) :
    set_breaker l n cb = l := by
  induction l with
  | nil => simp [lookup_breaker] at h
  | cons p rest ih =>
      obtain ⟨k, v⟩ := p
      by_cases hk : (k == n) = true
      · have hkn : k = n := by simpa using hk
        subst hkn
        simp [lookup_breaker, List.find?] at h
        simp [set_breaker, h]
      · have h2 : lookup_breaker rest n = some cb := by
          simpa [lookup_breaker, List.find?, hk] using h
        simp [set_breaker, hk, ih h2]

/-- The breaker gate never touches the worker registry or the
configuration flags. -/
theorem breaker_gate_fields (o : Orchestrator) (t : String) (n : Nat) :
    (breaker_gate o t n).2.registry = o.registry ∧
    (breaker_gate o t n).2.enable_circuit_breaker = o.enable_circuit_breaker ∧
    (breaker_gate o t n).2.default_timeout = o.default_timeout := by
  unfold breaker_gate
  by_cases he : o.enable_circuit_breaker <;> simp [he] <;> split <;> simp

/-- The breaker gate does not read the worker registry. -/
theorem breaker_gate_registry_indep (e : Bool) (dt : Nat) (cbs : CBRegistry)
    (reg1 reg2 : List (String × Agent)) (t : String) (n : Nat) :
    (breaker_gate ⟨e, dt, cbs, reg1⟩ t n).1 = (breaker_gate ⟨e, dt, cbs, reg2⟩ t n).1 := by
  unfold breaker_gate
  cases e with
  | false => rfl
  | true =>
      by_cases hc : (can_execute (get_or_create cbs t).1 n).1 = true <;> simp [hc]

/-- A blocking breaker gate yields exactly the breaker-open failure and
leaves the orchestrator state (in particular the breaker that blocked)
unchanged. -/
theorem blocked_gate_eq (o : Orchestrator) (t : String) (n : Nat) (r : AgentResult)
    (h : (breaker_gate o t n).1 = some r) :
    r = failure_result ("Circuit breaker open for " ++ t) "CircuitBreakerOpenError" ∧
    (breaker_gate o t n).2 = o := by
  by_cases he : o.enable_circuit_breaker
  · cases hl : lookup_breaker o.circuit_breakers.breakers t with
    | none =>
        exfalso
        unfold breaker_gate at h
        simp only [he, if_true] at h
        simp [get_or_create, hl, can_execute] at h
    | some cb =>
        by_cases hc : (can_execute cb n).1 = true
        · exfalso
          unfold breaker_gate at h
          simp only [he, if_true] at h
          simp [get_or_create, hl, hc] at h
        · have hc' : (can_execute cb n).1 = false := by simpa using hc
          have hfix := can_execute_false_fixed cb n hc'
          unfold breaker_gate at h ⊢
          simp only [he, if_true] at h ⊢
          simp [get_or_create, hl, hc', hfix, set_breaker_self _ _ _ hl] at h ⊢
          refine ⟨h.symm, ?_⟩
          rw [← he]
  · unfold breaker_gate at h
    simp [he] at h

/-- C2 (amended): dispatch is total and converts every failure mode into a
failure result.  The circuit-breaker gate is checked before the registry
lookup, so a blocking breaker takes precedence: when the gate does not
block and the target is unregistered the result is the AgentNotFound
failure; when the gate blocks, the result is the CircuitBreakerOpen
failure, the orchestrator state (breakers included) is left untouched and
the result is independent of the registered workers (the worker's execute
is not reached); an exception raised by a registered worker is converted
into a failure result carrying the exception's type name. -/
theorem claim_C2 :
    (∀ (o : Orchestrator) (command target : String) (params : List (String × Value))
       (now : Nat),
      (breaker_gate o target now).1 = none →
      get_agent_safe o.registry target = none →
      (dispatch o command target params now).1
        = failure_result ("Agent not found: " ++ target) "AgentNotFoundError") ∧
    (∀ (o : Orchestrator) (command target : String) (params : List (String × Value))
       (now : Nat) (r : AgentResult),
      (breaker_gate o target now).1 = some r →
      (dispatch o command target params now).1
          = failure_result ("Circuit breaker open for " ++ target)
              "CircuitBreakerOpenError" ∧
        (dispatch o command target params now).2 = o ∧
        (∀ reg2 : List (String × Agent),
          (dispatch { o with registry := reg2 } command target params now).1
            = (dispatch o command target params now).1)) ∧
    (∀ (o : Orchestrator) (command target : String) (params : List (String × Value))
       (now : Nat) (agent : Agent) (e : PyExn) (d : Nat),
      (breaker_gate o target now).1 = none →
      get_agent_safe o.registry target = some agent →
      agent.capabilities.contains command = true →
      agent.run (dict_update [("command", .vstr command)] params) = (d, .error e) →
      (dispatch o command target params now).1 = failure_result e.msg e.ty) := by
  refine ⟨?_, ?_, ?_⟩
  · intro o command target params now hg ha
    have hreg := (breaker_gate_fields o target now).1
    unfold dispatch
    rcases hgate : breaker_gate o target now with ⟨g1, o1⟩
    rw [hgate] at hg hreg
    simp at hg hreg
    subst hg
    dsimp only
    rw [hreg, ha]
  · intro o command target params now r hg
    obtain ⟨hr, ho⟩ := blocked_gate_eq o target now r hg
    subst hr
    have hmain : (dispatch o command target params now)
        = (failure_result ("Circuit breaker open for " ++ target)
            "CircuitBreakerOpenError", o) := by
      unfold dispatch
      rcases hgate : breaker_gate o target now with ⟨g1, o1⟩
      rw [hgate] at hg ho
      simp at hg ho
      subst hg
      simp [ho]
    refine ⟨by rw [hmain], by rw [hmain], ?_⟩
    intro reg2
    have hg2 : (breaker_gate { o with registry := reg2 } target now).1
        = (breaker_gate o target now).1 :=
      breaker_gate_registry_indep o.enable_circuit_breaker o.default_timeout
        o.circuit_breakers reg2 o.registry target now
    have hg2' := hg2.trans hg
    have hmain2 : (dispatch { o with registry := reg2 } command target params now).1
        = failure_result ("Circuit breaker open for " ++ target)
            "CircuitBreakerOpenError" := by
      unfold dispatch
      rcases hgate2 : breaker_gate { o with registry := reg2 } target now with ⟨g1, o1⟩
      rw [hgate2] at hg2'
      simp at hg2'
      subst hg2'
      simp
    rw [hmain2, hmain]
  · intro o command target params now agent e d hg ha hc hrun
    have hreg := (breaker_gate_fields o target now).1
    unfold dispatch
    rcases hgate : breaker_gate o target now with ⟨g1, o1⟩
    rw [hgate] at hg hreg
    simp at hg hreg
    subst hg
    dsimp only
    rw [hreg, ha]
    have hc' : command ∈ agent.capabilities := by simpa using hc
    simp [hc', hrun]

/-- An orchestrator whose breaker for worker B is OPEN (it tripped at time
100) while B is not registered (e.g. the worker failed repeatedly and was
then unregistered). -/
def c2_orch : Orchestrator :=
  { circuit_breakers := { breakers := [("B",
      { state := .opened, last_failure_time := some 100, failure_count := 5 })] },
    registry := [] }

/-- Counterexample to C2 as stated: dispatching to the unregistered worker
B does not return the AgentNotFound failure, because the circuit-breaker
gate runs first and B's breaker is open (still within its recovery
window at time 100). -/
theorem claim_C2_counterexample :
    get_agent_safe c2_orch.registry "B" = none ∧
    (dispatch c2_orch "cmd" "B" [] 100).1.error_type = some "CircuitBreakerOpenError" ∧
    ¬ (dispatch c2_orch "cmd" "B" [] 100).1.error_type = some "AgentNotFoundError" := by
  refine ⟨rfl, rfl, ?_⟩
  intro h
  rw [show (dispatch c2_orch "cmd" "B" [] 100).1.error_type
      = some "CircuitBreakerOpenError" from rfl] at h
  simp at h

/-- A worker whose execute raises. -/
def c2_raise_agent : Agent :=
  { capabilities := ["boom"],
    run := fun _ => (0, .error { ty := "RuntimeError", msg := "exploded" }) }

/-- An orchestrator with only the raising worker registered. -/
def c2_raise_orch : Orchestrator := { registry := [("R", c2_raise_agent)] }

/-- Closed instance of the amended C2: an unregistered target with a clear
gate gives the AgentNotFound failure; the open-breaker state gives the
CircuitBreakerOpen failure and leaves the orchestrator untouched; a
raising worker is converted to a failure result with the exception's type
name. -/
theorem claim_C2_witness :
    (dispatch { registry := [] } "cmd" "B" [] 0).1
      = failure_result ("Agent not found: " ++ "B") "AgentNotFoundError" ∧
    (dispatch c2_orch "cmd" "B" [] 100).1
      = failure_result ("Circuit breaker open for " ++ "B") "CircuitBreakerOpenError" ∧
    (dispatch c2_orch "cmd" "B" [] 100).2 = c2_orch ∧
    (dispatch c2_raise_orch "boom" "R" [] 0).1 = failure_result "exploded" "RuntimeError" := by
  have h1 := claim_C2.1 { registry := [] } "cmd" "B" [] 0 rfl rfl
  have h2 := claim_C2.2.1 c2_orch "cmd" "B" [] 100
    (failure_result ("Circuit breaker open for " ++ "B") "CircuitBreakerOpenError") rfl
  have h3 := claim_C2.2.2 c2_raise_orch "boom" "R" [] 0 c2_raise_agent
    { ty := "RuntimeError", msg := "exploded" } 0 rfl rfl rfl rfl
  exact ⟨h1, h2.1, h2.2.1, h3⟩

/-! ## C5: workflow step dispatch versus dispatch -/

/-- C5 (amended): _execute_step shares the breaker gate and registry
lookup with dispatch and adds the step deadline, but it performs no
capability check: whenever the gate is clear and the target worker is
registered, the worker runs on the resolved inputs (plus the command key)
and its result is returned within the deadline, whatever the worker's
declared capabilities; dispatch by contrast refuses an undeclared
capability with the CapabilityNotFound failure before invoking the
worker. -/
theorem claim_C5 :
    (∀ (o : Orchestrator) (step : WorkflowStep) (acc : List (String × Value))
       (mt now d : Nat) (agent : Agent) (r : AgentResult),
      (breaker_gate o step.block_id now).1 = none →
      get_agent_safe o.registry step.block_id = some agent →
      agent.run (dset (resolve_inputs acc step.inputs) "command" (.vstr step.action))
        = (d, .ok r) →
      d ≤ step.timeout.getD o.default_timeout →
      (execute_step o step acc mt now).1 = r) ∧
    (∀ (o : Orchestrator) (command target : String) (params : List (String × Value))
       (now : Nat) (agent : Agent),
      (breaker_gate o target now).1 = none →
      get_agent_safe o.registry target = some agent →
      agent.capabilities.contains command = false →
      (dispatch o command target params now).1
        = failure_result ("Agent " ++ target ++ " does not have capability: " ++ command)
            "CapabilityNotFoundError") := by
  constructor
  · intro o step acc mt now d agent r hg ha hrun hd
    have hreg := (breaker_gate_fields o step.block_id now).1
    unfold execute_step
    rcases hgate : breaker_gate o step.block_id now with ⟨g1, o1⟩
    rw [hgate] at hg hreg
    simp at hg hreg
    subst hg
    dsimp only
    rw [hreg, ha]
    have hnd : ¬ ((agent.run (dset (resolve_inputs acc step.inputs) "command"
        (.vstr step.action))).1 > step.timeout.getD o.default_timeout) := by
      rw [hrun]
      simpa using hd
    simp [hrun] at hnd ⊢
    have hlt : ¬ (d > step.timeout.getD o.default_timeout) := by omega
    simp [hlt]
  · intro o command target params now agent hg ha hc
    have hreg := (breaker_gate_fields o target now).1
    unfold dispatch
    rcases hgate : breaker_gate o target now with ⟨g1, o1⟩
    rw [hgate] at hg hreg
    simp at hg hreg
    subst hg
    dsimp only
    rw [hreg, ha]
    have hc' : command ∉ agent.capabilities := by simpa using hc
    simp [hc']

/-- A registered worker that echoes its input dict back as a success
result and declares only the save capability. -/
def c5_echo : Agent :=
  { capabilities := ["save"],
    run := fun input => (0, .ok (success_result (.vdict input))) }

/-- An orchestrator with only the echo worker registered under S. -/
def c5_orch : Orchestrator := { registry := [("S", c5_echo)] }

/-- A workflow step whose action is not among the target worker's declared
capabilities. -/
def c5_step : WorkflowStep :=
  { id := "st1", block_id := "S", action := "not_a_capability" }

/-- Counterexample to C5 as stated: executing a step whose action is not a
declared capability of the target worker does not yield the
CapabilityNotFound failure; the worker's execute runs and its (successful)
result is returned. -/
theorem claim_C5_counterexample :
    c5_echo.capabilities.contains c5_step.action = false ∧
    (execute_step c5_orch c5_step [] 50000 0).1
      = success_result (.vdict [("command", .vstr "not_a_capability")]) ∧
    (execute_step c5_orch c5_step [] 50000 0).1.success = true ∧
    (execute_step c5_orch c5_step [] 50000 0).1.error_type = none :=
  ⟨rfl, rfl, rfl, rfl⟩

/-- Closed instance of the amended C5: the undeclared action runs anyway
through _execute_step, while dispatch refuses it with the
CapabilityNotFound failure. -/
theorem claim_C5_witness :
    (execute_step c5_orch c5_step [] 50000 0).1
      = success_result (.vdict [("command", .vstr "not_a_capability")]) ∧
    (dispatch c5_orch "not_a_capability" "S" [] 0).1
      = failure_result ("Agent " ++ "S" ++ " does not have capability: "
          ++ "not_a_capability") "CapabilityNotFoundError" := by
  have h1 := claim_C5.1 c5_orch c5_step [] 50000 0 0 c5_echo
    (success_result (.vdict [("command", .vstr "not_a_capability")]))
    rfl rfl rfl (by decide)
  have h2 := claim_C5.2 c5_orch "not_a_capability" "S" [] 0 c5_echo rfl rfl rfl
  exact ⟨h1, h2⟩

/-! ## C7: the reference pass of validate -/

/-- A left fold that only appends per-element contributions is the initial
list followed by the concatenated contributions. -/
theorem foldl_acc {α β : Type} (f : List β → α → List β)
    (hf : ∀ es x, f es x = es ++ f [] x) :
    ∀ (l : List α) (init : List β),
      l.foldl f init = init ++ l.bind (fun x => f [] x) := by
  intro l
  induction l with
  | nil => intro init; simp
  | cons x xs ih =>
      intro init
      rw [List.foldl_cons, ih (f init x), hf init x]
      simp [List.cons_bind, List.append_assoc]

/-- The per-input contribution of the reference pass: the unknown-step
message when the input is a reference whose first component is not a step
id. -/
def ref_err_of (all_ids : List String) (step : WorkflowStep)
    (kv : String × Value) : List String :=
  match kv.2 with
  | .vstr s =>
      if strStarts s "$\x7b" then
        if all_ids.contains (ref_first s) then []
        else ["Step \x27" ++ step.id ++ "\x27 references unknown step: " ++ ref_first s]
      else []
  | _ => []

/-- The reference pass is the concatenation of the per-input
contributions. -/
theorem ref_errors_eq (w : Workflow) :
    ref_errors w = w.steps.bind (fun step =>
      step.inputs.bind (ref_err_of (w.steps.map (fun s => s.id)) step)) := by
  unfold ref_errors
  rw [foldl_acc _ (fun es step => by simp)]
  simp only [List.nil_append]
  congr 1
  funext step
  rw [foldl_acc _ ?hin]
  case hin =>
    intro es kv
    rcases kv with ⟨k, v⟩
    cases v <;> simp
    split
    · split <;> simp
    · exact (List.append_nil es).symm
  simp only [List.nil_append]
  congr 1

/-- Reference problems are reported by validate (they form the tail of its
problem list). -/
theorem mem_validate_of_mem_ref (w : Workflow) (m : String) (hm : m ∈ ref_errors w) :
    m ∈ validate w := by
  unfold validate
  exact List.mem_append_right _ hm

/-- C7 (amended): validate reports an unknown-step problem for a
top-level string input reference exactly when the referenced first
component is not the id of ANY step of the workflow, earlier or later: a
reference to an id declared anywhere passes (in particular a forward
reference to a step declared later is accepted, contrary to the claim as
stated). -/
theorem claim_C7 :
    (∀ (w : Workflow) (step : WorkflowStep) (k s : String),
      step ∈ w.steps → (k, Value.vstr s) ∈ step.inputs →
      strStarts s "$\x7b" = true →
      (w.steps.map (fun t => t.id)).contains (ref_first s) = false →
      ("Step \x27" ++ step.id ++ "\x27 references unknown step: " ++ ref_first s)
        ∈ validate w) ∧
    (∀ w : Workflow,
      (∀ step ∈ w.steps, ∀ kv ∈ step.inputs, ∀ s : String, kv.2 = Value.vstr s →
        strStarts s "$\x7b" = true →
        (w.steps.map (fun t => t.id)).contains (ref_first s) = true) →
      ref_errors w = []) := by
  constructor
  · intro w step k s hstep hkv hstart hcontains
    apply mem_validate_of_mem_ref
    rw [ref_errors_eq]
    refine List.mem_bind.mpr ⟨step, hstep, ?_⟩
    refine List.mem_bind.mpr ⟨(k, .vstr s), hkv, ?_⟩
    unfold ref_err_of
    simp [hstart, hcontains]
    simpa using hcontains
  · intro w h
    rw [ref_errors_eq]
    rw [List.bind_eq_nil_iff]
    intro step hstep
    rw [List.bind_eq_nil_iff]
    intro kv hkv
    rcases kv with ⟨k, v⟩
    cases v with
    | vstr s =>
        unfold ref_err_of
        by_cases hs : strStarts s "$\x7b" = true
        · have h2 := h step hstep (k, .vstr s) hkv s rfl hs
          simp [hs, h2]
          simpa using h2
        · simp at hs
          simp [hs]
    | vnone => rfl
    | vbool b => rfl
    | vnat n => rfl
    | vlist xs => rfl
    | vdict xs => rfl

/-- A two-step workflow whose first step references an output of the
second (a forward reference). -/
def wf_fwd : Workflow :=
  { id := "w", name := "w",
    steps := [
      { id := "s1", block_id := "B1", action := "a1",
        inputs := [("x", .vstr "$\x7bs2.out\x7d")] },
      { id := "s2", block_id := "B2", action := "a2", outputs := ["out"] }] }

/-- Counterexample to C7 as stated: a workflow whose first step references
a step declared later yields no validation problem at all, because the id
set checked by the reference pass already contains every step id. -/
theorem claim_C7_counterexample :
    ref_first "$\x7bs2.out\x7d" = "s2" ∧
    wf_fwd.steps.map (fun t => t.id) = ["s1", "s2"] ∧
    validate wf_fwd = [] :=
  ⟨rfl, by decide, by rfl⟩

/-- A workflow whose only step references an id that no step declares. -/
def wf_unknown : Workflow :=
  { id := "w", name := "w",
    steps := [
      { id := "u1", block_id := "B1", action := "a1",
        inputs := [("x", .vstr "$\x7bghost.out\x7d")] }] }

/-- Closed instance of the amended C7: the reference to an undeclared id
is reported, and the forward reference of wf_fwd produces no reference
problem. -/
theorem claim_C7_witness :
    ("Step \x27" ++ "u1" ++ "\x27 references unknown step: " ++ ref_first "$\x7bghost.out\x7d")
      ∈ validate wf_unknown ∧
    ref_errors wf_fwd = [] := by
  constructor
  · exact claim_C7.1 wf_unknown
      { id := "u1", block_id := "B1", action := "a1",
        inputs := [("x", .vstr "$\x7bghost.out\x7d")] }
      "x" "$\x7bghost.out\x7d"
      (List.mem_singleton.mpr rfl) (List.mem_singleton.mpr rfl) rfl rfl
  · refine claim_C7.2 wf_fwd ?_
    intro step hstep kv hkv s hv hs
    simp [wf_fwd] at hstep
    rcases hstep with h1 | h2
    · subst h1
      simp [wf_fwd] at hkv
      subst hkv
      simp at hv
      subst hv
      rfl
    · subst h2
      simp [wf_fwd] at hkv

/-! ## Unfolding the step loop -/

/-- One loop iteration on a condition-skipped step. -/
theorem run_steps_cons_skip (wf : Workflow) (wf_id : String) (now : Nat)
    (step : WorkflowStep) (rest : List WorkflowStep) (st : RunState)
    (h : step_skipped step st.accumulated = true) :
    run_steps wf wf_id now (step :: rest) st =
      run_steps wf wf_id now rest
        { st with current_step := st.current_step + 1,
                  trace := st.trace ++ [TraceEntry.skipped step.id] } := by
  rw [run_steps]
  simp [h]

/-- One loop iteration on an executed, successful step. -/
theorem run_steps_cons_success (wf : Workflow) (wf_id : String) (now : Nat)
    (step : WorkflowStep) (rest : List WorkflowStep) (st : RunState)
    (r : AgentResult) (o2 : Orchestrator)
    (hsk : step_skipped step st.accumulated = false)
    (hex : execute_step st.orch step st.accumulated wf.max_tokens_per_step now = (r, o2))
    (hsuc : r.success = true) :
    run_steps wf wf_id now (step :: rest) st =
      run_steps wf wf_id now rest
        { orch := o2,
          accumulated := store_outputs st.accumulated step r,
          step_results := set_result st.step_results step.id r,
          errors := st.errors,
          events := st.events ++ [step_completed_event wf_id step.id r.success],
          trace := st.trace ++ [TraceEntry.executed step st.accumulated r],
          current_step := st.current_step + 1 } := by
  rw [run_steps]
  simp [hsk, hex, hsuc]

/-- One loop iteration on an executed, failing step whose policy aborts
the run. -/
theorem run_steps_cons_abort (wf : Workflow) (wf_id : String) (now : Nat)
    (step : WorkflowStep) (rest : List WorkflowStep) (st : RunState)
    (r : AgentResult) (o2 : Orchestrator)
    (hsk : step_skipped step st.accumulated = false)
    (hex : execute_step st.orch step st.accumulated wf.max_tokens_per_step now = (r, o2))
    (hsuc : r.success = false)
    (hab : step.on_failure = "abort") :
    run_steps wf wf_id now (step :: rest) st =
      (RunOutcome.aborted step.id,
        { orch := o2,
          accumulated := store_outputs st.accumulated step r,
          step_results := set_result st.step_results step.id r,
          errors := st.errors ++ [fail_msg step r],
          events := st.events ++ hook_events wf.hooks.on_error,
          trace := st.trace ++ [TraceEntry.executed step st.accumulated r],
          current_step := st.current_step + 1 }) := by
  rw [run_steps]
  simp [hsk, hex, hsuc, hab]

/-- One loop iteration on an executed, failing step whose policy rolls the
run back. -/
theorem run_steps_cons_rollback (wf : Workflow) (wf_id : String) (now : Nat)
    (step : WorkflowStep) (rest : List WorkflowStep) (st : RunState)
    (r : AgentResult) (o2 : Orchestrator)
    (hsk : step_skipped step st.accumulated = false)
    (hex : execute_step st.orch step st.accumulated wf.max_tokens_per_step now = (r, o2))
    (hsuc : r.success = false)
    (hrb : step.on_failure = "rollback") :
    run_steps wf wf_id now (step :: rest) st =
      (RunOutcome.rolled_back step.id,
        { orch := o2,
          accumulated := store_outputs st.accumulated step r,
          step_results := set_result st.step_results step.id r,
          errors := st.errors ++ [fail_msg step r],
          events := st.events ++ [rollback_event wf_id step.id]
            ++ hook_events wf.hooks.on_error,
          trace := st.trace ++ [TraceEntry.executed step st.accumulated r],
          current_step := st.current_step + 1 }) := by
  rw [run_steps]
  simp [hsk, hex, hsuc, hrb]

/-- One loop iteration on an executed, failing step whose policy lets the
run continue (skip, continue, or any other non-terminal value). -/
theorem run_steps_cons_continue (wf : Workflow) (wf_id : String) (now : Nat)
    (step : WorkflowStep) (rest : List WorkflowStep) (st : RunState)
    (r : AgentResult) (o2 : Orchestrator)
    (hsk : step_skipped step st.accumulated = false)
    (hex : execute_step st.orch step st.accumulated wf.max_tokens_per_step now = (r, o2))
    (hsuc : r.success = false)
    (hab : ¬ step.on_failure = "abort")
    (hrb : ¬ step.on_failure = "rollback") :
    run_steps wf wf_id now (step :: rest) st =
      run_steps wf wf_id now rest
        { orch := o2,
          accumulated := store_outputs st.accumulated step r,
          step_results := set_result st.step_results step.id r,
          errors := st.errors ++ [fail_msg step r],
          events := st.events ++ [step_completed_event wf_id step.id r.success],
          trace := st.trace ++ [TraceEntry.executed step st.accumulated r],
          current_step := st.current_step + 1 } := by
  rw [run_steps]
  simp [hsk, hex, hsuc, hab, hrb]

/-- The loop only appends to the trace, the event list and the error
list. -/
theorem run_steps_mono (wf : Workflow) (wf_id : String) (now : Nat) :
    ∀ (steps : List WorkflowStep) (st : RunState),
      ∃ Δt Δe Δr,
        (run_steps wf wf_id now steps st).2.trace = st.trace ++ Δt ∧
        (run_steps wf wf_id now steps st).2.events = st.events ++ Δe ∧
        (run_steps wf wf_id now steps st).2.errors = st.errors ++ Δr := by
  intro steps
  induction steps with
  | nil => intro st; exact ⟨[], [], [], by simp [run_steps], by simp [run_steps],
      by simp [run_steps]⟩
  | cons step rest ih =>
      intro st
      by_cases hsk : step_skipped step st.accumulated = true
      · rw [run_steps_cons_skip wf wf_id now step rest st hsk]
        obtain ⟨Δt, Δe, Δr, ht, he, hr⟩ := ih _
        exact ⟨[TraceEntry.skipped step.id] ++ Δt, Δe, Δr,
          by rw [ht]; simp, by rw [he], by rw [hr]⟩
      · have hsk' : step_skipped step st.accumulated = false := by simpa using hsk
        rcases hex : execute_step st.orch step st.accumulated wf.max_tokens_per_step now
          with ⟨r, o2⟩
        by_cases hsuc : r.success = true
        · rw [run_steps_cons_success wf wf_id now step rest st r o2 hsk' hex hsuc]
          obtain ⟨Δt, Δe, Δr, ht, he, hr⟩ := ih _
          exact ⟨[TraceEntry.executed step st.accumulated r] ++ Δt,
            [step_completed_event wf_id step.id r.success] ++ Δe, Δr,
            by rw [ht]; simp, by rw [he]; simp, by rw [hr]⟩
        · have hsuc' : r.success = false := by simpa using hsuc
          by_cases hab : step.on_failure = "abort"
          · rw [run_steps_cons_abort wf wf_id now step rest st r o2 hsk' hex hsuc' hab]
            exact ⟨[TraceEntry.executed step st.accumulated r],
              hook_events wf.hooks.on_error, [fail_msg step r], rfl, rfl, rfl⟩
          · by_cases hrb : step.on_failure = "rollback"
            · rw [run_steps_cons_rollback wf wf_id now step rest st r o2 hsk' hex hsuc' hrb]
              exact ⟨[TraceEntry.executed step st.accumulated r],
                [rollback_event wf_id step.id] ++ hook_events wf.hooks.on_error,
                [fail_msg step r], rfl, by simp, rfl⟩
            · rw [run_steps_cons_continue wf wf_id now step rest st r o2 hsk' hex hsuc' hab hrb]
              obtain ⟨Δt, Δe, Δr, ht, he, hr⟩ := ih _
              exact ⟨[TraceEntry.executed step st.accumulated r] ++ Δt,
                [step_completed_event wf_id step.id r.success] ++ Δe,
                [fail_msg step r] ++ Δr,
                by rw [ht]; simp, by rw [he]; simp, by rw [hr]; simp⟩

/-- Whenever the loop reaches a step whose condition passes, the step is
executed: the next trace entry records it with the accumulated data it
received and the result the step execution produced. -/
theorem run_steps_first_executed (wf : Workflow) (wf_id : String) (now : Nat)
    (step : WorkflowStep) (rest : List WorkflowStep) (st : RunState)
    (r : AgentResult) (o2 : Orchestrator)
    (hsk : step_skipped step st.accumulated = false)
    (hex : execute_step st.orch step st.accumulated wf.max_tokens_per_step now = (r, o2)) :
    ∃ Δ, (run_steps wf wf_id now (step :: rest) st).2.trace
      = st.trace ++ [TraceEntry.executed step st.accumulated r] ++ Δ := by
  by_cases hsuc : r.success = true
  · rw [run_steps_cons_success wf wf_id now step rest st r o2 hsk hex hsuc]
    obtain ⟨Δt, _, _, ht, _, _⟩ := run_steps_mono wf wf_id now rest _
    exact ⟨Δt, by rw [ht]⟩
  · have hsuc' : r.success = false := by simpa using hsuc
    by_cases hab : step.on_failure = "abort"
    · rw [run_steps_cons_abort wf wf_id now step rest st r o2 hsk hex hsuc' hab]
      exact ⟨[], by simp⟩
    · by_cases hrb : step.on_failure = "rollback"
      · rw [run_steps_cons_rollback wf wf_id now step rest st r o2 hsk hex hsuc' hrb]
        exact ⟨[], by simp⟩
      · rw [run_steps_cons_continue wf wf_id now step rest st r o2 hsk hex hsuc' hab hrb]
        obtain ⟨Δt, _, _, ht, _, _⟩ := run_steps_mono wf wf_id now rest _
        exact ⟨Δt, by rw [ht]⟩

/-- A failing step stores nothing into the accumulated data. -/
theorem store_outputs_failure (acc : List (String × Value)) (step : WorkflowStep)
    (r : AgentResult) (h : r.success = false) :
    store_outputs acc step r = acc := by
  unfold store_outputs
  simp [h]

/-- C1: when the loop reaches step N and its execution fails, an abort
policy ends the run at once: the trace gains only step N's entry (neither
step N+1 nor any later step executes), the error is recorded, the
on_error hook events are published, and execute_workflow turns the
aborted outcome into a terminal failure result with failed status; a
skip or continue policy records the error on the run and still executes
step N+1. -/
theorem claim_C1 :
    (∀ (wf : Workflow) (wf_id : String) (now : Nat) (st : RunState)
       (sN sN1 : WorkflowStep) (rest : List WorkflowStep) (r : AgentResult)
       (o2 : Orchestrator),
      step_skipped sN st.accumulated = false →
      execute_step st.orch sN st.accumulated wf.max_tokens_per_step now = (r, o2) →
      r.success = false →
      sN.on_failure = "abort" →
      (run_steps wf wf_id now (sN :: sN1 :: rest) st).1 = RunOutcome.aborted sN.id ∧
      (run_steps wf wf_id now (sN :: sN1 :: rest) st).2.trace
        = st.trace ++ [TraceEntry.executed sN st.accumulated r] ∧
      (run_steps wf wf_id now (sN :: sN1 :: rest) st).2.errors
        = st.errors ++ [fail_msg sN r] ∧
      (run_steps wf wf_id now (sN :: sN1 :: rest) st).2.events
        = st.events ++ hook_events wf.hooks.on_error) ∧
    (∀ (o : Orchestrator) (workflow_name : String) (w : Workflow)
       (params : List (String × Value)) (wf_id : String) (now : Nat) (sid : String)
       (st' : RunState),
      validate w = [] →
      run_steps w wf_id now w.steps
        { orch := o, accumulated := dict_update [] params,
          events := hook_events w.hooks.on_start } = (RunOutcome.aborted sid, st') →
      (execute_workflow o workflow_name (.ok w) params wf_id now).result
        = failure_result ("Workflow aborted at step " ++ sid) "WorkflowAbortedError" ∧
      (execute_workflow o workflow_name (.ok w) params wf_id now).result.success = false ∧
      (execute_workflow o workflow_name (.ok w) params wf_id now).status = "failed") ∧
    (∀ (wf : Workflow) (wf_id : String) (now : Nat) (st : RunState)
       (sN sN1 : WorkflowStep) (rest : List WorkflowStep) (r : AgentResult)
       (o2 : Orchestrator),
      step_skipped sN st.accumulated = false →
      execute_step st.orch sN st.accumulated wf.max_tokens_per_step now = (r, o2) →
      r.success = false →
      (sN.on_failure = "skip" ∨ sN.on_failure = "continue") →
      (∃ Δr, (run_steps wf wf_id now (sN :: sN1 :: rest) st).2.errors
          = st.errors ++ [fail_msg sN r] ++ Δr) ∧
      (∀ (r2 : AgentResult) (o3 : Orchestrator),
        step_skipped sN1 st.accumulated = false →
        execute_step o2 sN1 st.accumulated wf.max_tokens_per_step now = (r2, o3) →
        ∃ Δt, (run_steps wf wf_id now (sN :: sN1 :: rest) st).2.trace
          = st.trace ++ [TraceEntry.executed sN st.accumulated r,
              TraceEntry.executed sN1 st.accumulated r2] ++ Δt)) := by
  refine ⟨?_, ?_, ?_⟩
  · intro wf wf_id now st sN sN1 rest r o2 hsk hex hfail hab
    rw [run_steps_cons_abort wf wf_id now sN (sN1 :: rest) st r o2 hsk hex hfail hab]
    exact ⟨rfl, rfl, rfl, rfl⟩
  · intro o workflow_name w params wf_id now sid st' hval hrun
    unfold execute_workflow
    dsimp only
    simp [hval, hrun]
    rfl
  · intro wf wf_id now st sN sN1 rest r o2 hsk hex hfail hpol
    have hab : ¬ sN.on_failure = "abort" := by
      rcases hpol with h | h <;> rw [h] <;> decide
    have hrb : ¬ sN.on_failure = "rollback" := by
      rcases hpol with h | h <;> rw [h] <;> decide
    rw [run_steps_cons_continue wf wf_id now sN (sN1 :: rest) st r o2 hsk hex hfail hab hrb]
    have hacc := store_outputs_failure st.accumulated sN r hfail
    constructor
    · obtain ⟨_, _, Δr, _, _, hr⟩ := run_steps_mono wf wf_id now (sN1 :: rest) _
      exact ⟨Δr, by rw [hr]⟩
    · intro r2 o3 hsk1 hex2
      obtain ⟨Δt, ht⟩ := run_steps_first_executed wf wf_id now sN1 rest
        { orch := o2,
          accumulated := store_outputs st.accumulated sN r,
          step_results := set_result st.step_results sN.id r,
          errors := st.errors ++ [fail_msg sN r],
          events := st.events ++ [step_completed_event wf_id sN.id r.success],
          trace := st.trace ++ [TraceEntry.executed sN st.accumulated r],
          current_step := st.current_step + 1 } r2 o3
        (by simpa [hacc] using hsk1) (by simpa [hacc] using hex2)
      refine ⟨Δt, ?_⟩
      rw [ht]
      simp [hacc]

/-- A worker that always fails with a RuntimeError-style failure result. -/
def px_fail : Agent :=
  { capabilities := ["parse"],
    run := fun _ => (0, .ok (failure_result "boom" "RuntimeError")) }

/-- An orchestrator with the failing parser P and the echo worker S. -/
def px_orch : Orchestrator := { registry := [("P", px_fail), ("S", c5_echo)] }

/-- Step s1: the failing parse step with abort policy. -/
def stA_abort : WorkflowStep :=
  { id := "s1", block_id := "P", action := "parse", on_failure := "abort" }

/-- Step s1 with continue policy. -/
def stA_cont : WorkflowStep :=
  { id := "s1", block_id := "P", action := "parse", on_failure := "continue" }

/-- Step s2: the echo save step. -/
def stB : WorkflowStep := { id := "s2", block_id := "S", action := "save" }

/-- Two-step workflow whose first step fails and aborts. -/
def wf_c1a : Workflow := { id := "w", name := "w", steps := [stA_abort, stB] }

/-- Two-step workflow whose first step fails and continues. -/
def wf_c1c : Workflow := { id := "w", name := "w", steps := [stA_cont, stB] }

/-- The failing step's result. -/
def boom_result : AgentResult := failure_result "boom" "RuntimeError"

/-- Closed instance of C1: the aborting run executes only step s1 and
returns the terminal failure; the continuing run records the error and
executes step s2. -/
theorem claim_C1_witness :
    (run_steps wf_c1a "RUN" 0 [stA_abort, stB] { orch := px_orch }).1
        = RunOutcome.aborted "s1" ∧
    (run_steps wf_c1a "RUN" 0 [stA_abort, stB] { orch := px_orch }).2.trace
        = [] ++ [TraceEntry.executed stA_abort [] boom_result] ∧
    (run_steps wf_c1a "RUN" 0 [stA_abort, stB] { orch := px_orch }).2.errors
        = [] ++ [fail_msg stA_abort boom_result] ∧
    (execute_workflow px_orch "w" (.ok wf_c1a) [] "RUN" 0).result
        = failure_result ("Workflow aborted at step " ++ "s1") "WorkflowAbortedError" ∧
    (∃ Δr, (run_steps wf_c1c "RUN" 0 [stA_cont, stB] { orch := px_orch }).2.errors
        = [] ++ [fail_msg stA_cont boom_result] ++ Δr) ∧
    (∃ Δt, (run_steps wf_c1c "RUN" 0 [stA_cont, stB] { orch := px_orch }).2.trace
        = [] ++ [TraceEntry.executed stA_cont [] boom_result,
            TraceEntry.executed stB [] (success_result
              (.vdict [("command", .vstr "save")]))] ++ Δt) := by
  obtain ⟨p1, p2, p3⟩ := claim_C1
  obtain ⟨h1, h2, h3, _⟩ := p1 wf_c1a "RUN" 0 { orch := px_orch } stA_abort stB []
    boom_result (execute_step px_orch stA_abort [] wf_c1a.max_tokens_per_step 0).2
    rfl rfl rfl rfl
  obtain ⟨h4, _, _⟩ := p2 px_orch "w" wf_c1a [] "RUN" 0 "s1"
    (run_steps wf_c1a "RUN" 0 wf_c1a.steps
      { orch := px_orch, accumulated := dict_update [] [],
        events := hook_events wf_c1a.hooks.on_start }).2
    rfl rfl
  obtain ⟨h5, h6⟩ := p3 wf_c1c "RUN" 0 { orch := px_orch } stA_cont stB []
    boom_result (execute_step px_orch stA_cont [] wf_c1c.max_tokens_per_step 0).2
    rfl rfl rfl (Or.inr rfl)
  have h7 := h6 (success_result (.vdict [("command", .vstr "save")]))
    (execute_step (execute_step px_orch stA_cont [] wf_c1c.max_tokens_per_step 0).2
      stB [] wf_c1c.max_tokens_per_step 0).2 rfl rfl
  exact ⟨h1, h2, h3, h4, h5, h7⟩

/-- Every event a hook list publishes is a workflow.notification event. -/
theorem hook_events_notification (hooks : List Hook) :
    ∀ e ∈ hook_events hooks, e.type = "workflow.notification" := by
  intro e he
  rcases List.mem_filterMap.mp he with ⟨h, _, hfe⟩
  by_cases hl : h.any (fun p => p.1 == "log") = true
  · simp [hl] at hfe
  · simp only [hl] at hfe
    cases hd : dget h "notify" with
    | none => simp [hd] at hfe
    | some d =>
        simp [hd] at hfe
        rw [← hfe]

/-- C6 (amended): the workflow.step.completed event is published after the
failure policy is applied, so it is published exactly for the executed
steps whose outcome lets the run continue: successful steps and failing
steps with skip or continue policy.  A failing step with abort policy
produces only the on_error hook events (all of type
workflow.notification); a failing step with rollback policy produces the
workflow.rollback event and the on_error hook events; in neither terminal
case is a step-completed event published for the step. -/
theorem claim_C6 :
    (∀ (wf : Workflow) (wf_id : String) (now : Nat) (st : RunState)
       (step : WorkflowStep) (rest : List WorkflowStep) (r : AgentResult)
       (o2 : Orchestrator),
      step_skipped step st.accumulated = false →
      execute_step st.orch step st.accumulated wf.max_tokens_per_step now = (r, o2) →
      r.success = true →
      ∃ Δe, (run_steps wf wf_id now (step :: rest) st).2.events
        = st.events ++ [step_completed_event wf_id step.id true] ++ Δe) ∧
    (∀ (wf : Workflow) (wf_id : String) (now : Nat) (st : RunState)
       (step : WorkflowStep) (rest : List WorkflowStep) (r : AgentResult)
       (o2 : Orchestrator),
      step_skipped step st.accumulated = false →
      execute_step st.orch step st.accumulated wf.max_tokens_per_step now = (r, o2) →
      r.success = false →
      (step.on_failure = "skip" ∨ step.on_failure = "continue") →
      ∃ Δe, (run_steps wf wf_id now (step :: rest) st).2.events
        = st.events ++ [step_completed_event wf_id step.id false] ++ Δe) ∧
    (∀ (wf : Workflow) (wf_id : String) (now : Nat) (st : RunState)
       (step : WorkflowStep) (rest : List WorkflowStep) (r : AgentResult)
       (o2 : Orchestrator),
      step_skipped step st.accumulated = false →
      execute_step st.orch step st.accumulated wf.max_tokens_per_step now = (r, o2) →
      r.success = false →
      step.on_failure = "abort" →
      (run_steps wf wf_id now (step :: rest) st).2.events
          = st.events ++ hook_events wf.hooks.on_error ∧
      ∀ e ∈ hook_events wf.hooks.on_error, ¬ e.type = "workflow.step.completed") ∧
    (∀ (wf : Workflow) (wf_id : String) (now : Nat) (st : RunState)
       (step : WorkflowStep) (rest : List WorkflowStep) (r : AgentResult)
       (o2 : Orchestrator),
      step_skipped step st.accumulated = false →
      execute_step st.orch step st.accumulated wf.max_tokens_per_step now = (r, o2) →
      r.success = false →
      step.on_failure = "rollback" →
      (run_steps wf wf_id now (step :: rest) st).2.events
          = st.events ++ [rollback_event wf_id step.id]
            ++ hook_events wf.hooks.on_error ∧
      ¬ (rollback_event wf_id step.id).type = "workflow.step.completed" ∧
      ∀ e ∈ hook_events wf.hooks.on_error, ¬ e.type = "workflow.step.completed") := by
  refine ⟨?_, ?_, ?_, ?_⟩
  · intro wf wf_id now st step rest r o2 hsk hex hsuc
    rw [run_steps_cons_success wf wf_id now step rest st r o2 hsk hex hsuc]
    obtain ⟨_, Δe, _, _, he, _⟩ := run_steps_mono wf wf_id now rest _
    exact ⟨Δe, by rw [he]; simp [hsuc]⟩
  · intro wf wf_id now st step rest r o2 hsk hex hfail hpol
    have hab : ¬ step.on_failure = "abort" := by
      rcases hpol with h | h <;> rw [h] <;> decide
    have hrb : ¬ step.on_failure = "rollback" := by
      rcases hpol with h | h <;> rw [h] <;> decide
    rw [run_steps_cons_continue wf wf_id now step rest st r o2 hsk hex hfail hab hrb]
    obtain ⟨_, Δe, _, _, he, _⟩ := run_steps_mono wf wf_id now rest _
    exact ⟨Δe, by rw [he]; simp [hfail]⟩
  · intro wf wf_id now st step rest r o2 hsk hex hfail hab
    rw [run_steps_cons_abort wf wf_id now step rest st r o2 hsk hex hfail hab]
    refine ⟨rfl, ?_⟩
    intro e he
    rw [hook_events_notification wf.hooks.on_error e he]
    decide
  · intro wf wf_id now st step rest r o2 hsk hex hfail hrb
    rw [run_steps_cons_rollback wf wf_id now step rest st r o2 hsk hex hfail hrb]
    refine ⟨rfl, ?_, ?_⟩
    · rw [show (rollback_event wf_id step.id).type = "workflow.rollback" from rfl]
      decide
    intro e he
    rw [hook_events_notification wf.hooks.on_error e he]
    decide

/-- Counterexample to C6 as stated: the one-failing-step abort run
executed step s1 (the trace shows it) yet published no
workflow.step.completed event at all. -/
theorem claim_C6_counterexample :
    (execute_workflow px_orch "w" (.ok wf_c1a) [] "RUN" 0).trace
      = [TraceEntry.executed stA_abort [] boom_result] ∧
    (execute_workflow px_orch "w" (.ok wf_c1a) [] "RUN" 0).events.filter
      (fun e => e.type == "workflow.step.completed") = [] :=
  ⟨rfl, rfl⟩

/-- A successful echo step. -/
def stE : WorkflowStep := { id := "sE", block_id := "S", action := "save" }

/-- Step s1 with rollback policy. -/
def stA_rb : WorkflowStep :=
  { id := "s1", block_id := "P", action := "parse", on_failure := "rollback" }

/-- Closed instance of the amended C6: the step-completed event appears
for the successful and the failing-continue step, while the abort and
rollback runs publish only the on_error hook events (none here) and the
rollback event respectively. -/
theorem claim_C6_witness :
    (∃ Δe, (run_steps wf_c1a "RUN" 0 [stE] { orch := px_orch }).2.events
        = [] ++ [step_completed_event "RUN" "sE" true] ++ Δe) ∧
    (∃ Δe, (run_steps wf_c1a "RUN" 0 [stA_cont] { orch := px_orch }).2.events
        = [] ++ [step_completed_event "RUN" "s1" false] ++ Δe) ∧
    (run_steps wf_c1a "RUN" 0 [stA_abort] { orch := px_orch }).2.events
        = [] ++ hook_events wf_c1a.hooks.on_error ∧
    (run_steps wf_c1a "RUN" 0 [stA_rb] { orch := px_orch }).2.events
        = [] ++ [rollback_event "RUN" "s1"] ++ hook_events wf_c1a.hooks.on_error := by
  obtain ⟨p1, p2, p3, p4⟩ := claim_C6
  refine ⟨?_, ?_, ?_, ?_⟩
  · exact p1 wf_c1a "RUN" 0 { orch := px_orch } stE []
      (success_result (.vdict [("command", .vstr "save")]))
      (execute_step px_orch stE [] wf_c1a.max_tokens_per_step 0).2 rfl rfl rfl
  · exact p2 wf_c1a "RUN" 0 { orch := px_orch } stA_cont [] boom_result
      (execute_step px_orch stA_cont [] wf_c1a.max_tokens_per_step 0).2
      rfl rfl rfl (Or.inr rfl)
  · exact (p3 wf_c1a "RUN" 0 { orch := px_orch } stA_abort [] boom_result
      (execute_step px_orch stA_abort [] wf_c1a.max_tokens_per_step 0).2
      rfl rfl rfl rfl).1
  · exact (p4 wf_c1a "RUN" 0 { orch := px_orch } stA_rb [] boom_result
      (execute_step px_orch stA_rb [] wf_c1a.max_tokens_per_step 0).2
      rfl rfl rfl rfl).1

/-! ## C9: visibility of accumulated step outputs -/

/-- Unfolding dict lookup over a cons cell. -/
theorem dget_cons (k1 : String) (v1 : Value) (t : List (String × Value)) (k : String) :
    dget ((k1, v1) :: t) k = if k1 == k then some v1 else dget t k := by
  by_cases h : (k1 == k) = true <;> simp [dget, List.find?_cons, h]

/-- Writing a key makes it readable. -/
theorem dget_dset_eq (a : List (String × Value)) (k : String) (v : Value) :
    dget (dset a k v) k = some v := by
  induction a with
  | nil => simp [dset, dget_cons]
  | cons p rest ih =>
      obtain ⟨k1, v1⟩ := p
      by_cases h : (k1 == k) = true
      · simp [dset, h, dget_cons]
      · simp [dset, h, dget_cons, ih]

/-- Writing one key leaves every other key's binding unchanged. -/
theorem dget_dset_ne (a : List (String × Value)) (k1 k2 : String) (v : Value)
    (h : ¬ k1 = k2) : dget (dset a k1 v) k2 = dget a k2 := by
  induction a with
  | nil =>
      have hb : (k1 == k2) = false := by simpa using h
      simp [dset, dget_cons, hb]
  | cons p rest ih =>
      obtain ⟨ka, va⟩ := p
      by_cases hk : (ka == k1) = true
      · have hka : ka = k1 := by simpa using hk
        have hb : (k1 == k2) = false := by simpa using h
        simp [dset, hk, dget_cons, hb, hka]
      · simp [dset, hk, dget_cons, ih]

/-- Left cancellation for string concatenation. -/
theorem str_append_cancel (a b c : String) (h : a ++ b = a ++ c) : b = c := by
  rcases a with ⟨da⟩
  rcases b with ⟨db⟩
  rcases c with ⟨dc⟩
  have hd : da ++ db = da ++ dc := congrArg String.data h
  exact congrArg String.mk (List.append_cancel_left hd)

/-- Whether a step's result stores something under the given accumulated
key (the write set of store_outputs). -/
def writes_key (step : WorkflowStep) (r : AgentResult) (key : String) : Bool :=
  r.success && r.data.truthy &&
    (match r.data with
     | .vdict d => step.outputs.any (fun k => (step.id ++ "." ++ k == key)
         && (dget d k).isSome)
     | _ => false)

/-- The inner storing fold leaves a key alone when no listed output writes
it. -/
theorem fold_store_preserve (sid : String) (d : List (String × Value)) (key : String) :
    ∀ (ks : List String) (acc : List (String × Value)),
      (∀ k ∈ ks, ((sid ++ "." ++ k == key) && (dget d k).isSome) = false) →
      dget (ks.foldl (fun a k =>
        match dget d k with
        | some v => dset a (sid ++ "." ++ k) v
        | none => a) acc) key = dget acc key := by
  intro ks
  induction ks with
  | nil => intro acc _; rfl
  | cons k ks ih =>
      intro acc hall
      rw [List.foldl_cons]
      cases hdk : dget d k with
      | none => exact ih acc (fun k2 hk2 => hall k2 (List.mem_cons_of_mem _ hk2))
      | some v =>
          have hk : ((sid ++ "." ++ k == key) && (dget d k).isSome) = false :=
            hall k (List.mem_cons_self _ _)
          rw [hdk] at hk
          simp at hk
          have hne : ¬ sid ++ "." ++ k = key := by simpa using hk
          rw [ih (dset acc (sid ++ "." ++ k) v)
            (fun k2 hk2 => hall k2 (List.mem_cons_of_mem _ hk2))]
          exact dget_dset_ne acc _ key v hne

/-- The inner storing fold writes a declared, present output under its
accumulated key. -/
theorem fold_store_key (sid : String) (d : List (String × Value)) (key y : String)
    (v : Value) (hk : key = sid ++ "." ++ y) (hv : dget d y = some v) :
    ∀ (ks : List String) (acc : List (String × Value)), y ∈ ks →
      dget (ks.foldl (fun a k =>
        match dget d k with
        | some v => dset a (sid ++ "." ++ k) v
        | none => a) acc) key = some v := by
  intro ks
  induction ks with
  | nil => intro acc hy; exact absurd hy (List.not_mem_nil y)
  | cons k ks ih =>
      intro acc hy
      rw [List.foldl_cons]
      by_cases hyk : y ∈ ks
      · exact ih _ hyk
      · have hky : k = y := by
          rcases List.mem_cons.mp hy with h | h
          · exact h.symm
          · exact absurd h hyk
        rw [hky, hv]
        rw [fold_store_preserve sid d key ks (dset acc (sid ++ "." ++ y) v) ?hrest]
        case hrest =>
          intro k2 hk2
          have hne : ¬ sid ++ "." ++ k2 = key := by
            intro he
            rw [hk] at he
            have h3 := str_append_cancel (sid ++ ".") k2 y he
            rw [h3] at hk2
            exact hyk hk2
          simp [hne]
        rw [hk]
        exact dget_dset_eq acc _ v

/-- store_outputs leaves a key alone when the step's result does not write
it. -/
theorem store_outputs_preserve (acc : List (String × Value)) (step : WorkflowStep)
    (r : AgentResult) (key : String) (h : writes_key step r key = false) :
    dget (store_outputs acc step r) key = dget acc key := by
  unfold store_outputs
  unfold writes_key at h
  by_cases hs : (r.success && r.data.truthy) = true
  · rw [if_pos hs]
    rw [hs] at h
    simp at h
    cases hdata : r.data with
    | vdict d =>
        rw [hdata] at h
        simp at h
        refine fold_store_preserve step.id d key step.outputs acc ?_
        intro k hk
        have h1 := h k hk
        by_cases he : step.id ++ "." ++ k = key
        · simp [h1 he]
        · simp [he]
    | vnone => rfl
    | vbool b => rfl
    | vnat n => rfl
    | vstr s => rfl
    | vlist xs => rfl
  · rw [if_neg hs]

/-- A successful step stores each declared output present in its dict
payload under its accumulated key. -/
theorem store_outputs_writes (acc : List (String × Value)) (step : WorkflowStep)
    (r : AgentResult) (d : List (String × Value)) (y : String) (v : Value)
    (hsuc : r.success = true) (hdata : r.data = .vdict d) (hne : ¬ d = [])
    (hy : y ∈ step.outputs) (hv : dget d y = some v) :
    dget (store_outputs acc step r) (step.id ++ "." ++ y) = some v := by
  unfold store_outputs
  have htr : r.data.truthy = true := by
    rw [hdata]
    simpa [Value.truthy] using hne
  rw [if_pos (by rw [hsuc, htr]; rfl)]
  rw [hdata]
  exact fold_store_key step.id d (step.id ++ "." ++ y) y v rfl hv step.outputs acc hy

/-- Whatever a key's binding is when the loop starts, it is unchanged at
every later executed step and at the end of the loop, provided no
executed step of the remaining run writes that key. -/
theorem run_steps_key_stable (wf : Workflow) (wf_id : String) (now : Nat)
    (key : String) (ov : Option Value) :
    ∀ (steps : List WorkflowStep) (st : RunState) (out : RunOutcome)
      (st' : RunState) (Δ : List TraceEntry),
      run_steps wf wf_id now steps st = (out, st') →
      st'.trace = st.trace ++ Δ →
      dget st.accumulated key = ov →
      (∀ (s : WorkflowStep) (acc : List (String × Value)) (r : AgentResult),
        TraceEntry.executed s acc r ∈ Δ → writes_key s r key = false) →
      (∀ (s : WorkflowStep) (acc : List (String × Value)) (r : AgentResult),
        TraceEntry.executed s acc r ∈ Δ → dget acc key = ov) ∧
      dget st'.accumulated key = ov := by
  intro steps
  induction steps with
  | nil =>
      intro st out st' Δ hrun hΔ hkey hW
      rw [run_steps] at hrun
      injection hrun with h1 h2
      subst h2
      have hΔnil : Δ = [] := by
        have h3 := congrArg List.length hΔ
        simp at h3
        exact h3
      subst hΔnil
      exact ⟨fun s acc r hmem => absurd hmem (List.not_mem_nil _), hkey⟩
  | cons step rest ih =>
      intro st out st' Δ hrun hΔ hkey hW
      by_cases hsk : step_skipped step st.accumulated = true
      · rw [run_steps_cons_skip wf wf_id now step rest st hsk] at hrun
        obtain ⟨Δ1, _, _, ht, _, _⟩ := run_steps_mono wf wf_id now rest
          { st with current_step := st.current_step + 1,
                    trace := st.trace ++ [TraceEntry.skipped step.id] }
        rw [hrun] at ht
        have hΔeq : Δ = [TraceEntry.skipped step.id] ++ Δ1 := by
          apply @List.append_cancel_left _ st.trace _ _
          rw [← hΔ, ht]
          simp
        obtain ⟨hA, hB⟩ := ih _ out st' Δ1 hrun ht hkey
          (fun s acc r hmem => hW s acc r (by rw [hΔeq]; exact List.mem_append_right _ hmem))
        refine ⟨?_, hB⟩
        intro s acc r hmem
        rw [hΔeq] at hmem
        rcases List.mem_append.mp hmem with hmem1 | hmem1
        · simp at hmem1
        · exact hA s acc r hmem1
      · have hsk' : step_skipped step st.accumulated = false := by simpa using hsk
        rcases hex : execute_step st.orch step st.accumulated wf.max_tokens_per_step now
          with ⟨r, o2⟩
        by_cases hsuc : r.success = true
        · rw [run_steps_cons_success wf wf_id now step rest st r o2 hsk' hex hsuc] at hrun
          obtain ⟨Δ1, _, _, ht, _, _⟩ := run_steps_mono wf wf_id now rest _
          rw [hrun] at ht
          have hΔeq : Δ = [TraceEntry.executed step st.accumulated r] ++ Δ1 := by
            apply @List.append_cancel_left _ st.trace _ _
            rw [← hΔ, ht]
            simp
          have hWhead : writes_key step r key = false :=
            hW step st.accumulated r (by rw [hΔeq]; simp)
          have hkey1 : dget (store_outputs st.accumulated step r) key = ov := by
            rw [store_outputs_preserve st.accumulated step r key hWhead]
            exact hkey
          obtain ⟨hA, hB⟩ := ih _ out st' Δ1 hrun ht hkey1
            (fun s acc r2 hmem => hW s acc r2 (by rw [hΔeq]; exact List.mem_append_right _ hmem))
          refine ⟨?_, hB⟩
          intro s acc r2 hmem
          rw [hΔeq] at hmem
          rcases List.mem_append.mp hmem with hmem1 | hmem1
          · simp at hmem1
            rw [hmem1.2.1]
            exact hkey
          · exact hA s acc r2 hmem1
        · have hsuc' : r.success = false := by simpa using hsuc
          by_cases hab : step.on_failure = "abort"
          · rw [run_steps_cons_abort wf wf_id now step rest st r o2 hsk' hex hsuc' hab]
              at hrun
            injection hrun with h1 h2
            subst h2
            have hΔeq : Δ = [TraceEntry.executed step st.accumulated r] := by
              apply @List.append_cancel_left _ st.trace _ _
              rw [← hΔ]
            have hWhead : writes_key step r key = false :=
              hW step st.accumulated r (by rw [hΔeq]; simp)
            refine ⟨?_, ?_⟩
            · intro s acc r2 hmem
              rw [hΔeq] at hmem
              simp at hmem
              rw [hmem.2.1]
              exact hkey
            · show dget (store_outputs st.accumulated step r) key = ov
              rw [store_outputs_preserve st.accumulated step r key hWhead]
              exact hkey
          · by_cases hrb : step.on_failure = "rollback"
            · rw [run_steps_cons_rollback wf wf_id now step rest st r o2 hsk' hex hsuc' hrb]
                at hrun
              injection hrun with h1 h2
              subst h2
              have hΔeq : Δ = [TraceEntry.executed step st.accumulated r] := by
                apply @List.append_cancel_left _ st.trace _ _
                rw [← hΔ]
              have hWhead : writes_key step r key = false :=
                hW step st.accumulated r (by rw [hΔeq]; simp)
              refine ⟨?_, ?_⟩
              · intro s acc r2 hmem
                rw [hΔeq] at hmem
                simp at hmem
                rw [hmem.2.1]
                exact hkey
              · show dget (store_outputs st.accumulated step r) key = ov
                rw [store_outputs_preserve st.accumulated step r key hWhead]
                exact hkey
            · rw [run_steps_cons_continue wf wf_id now step rest st r o2 hsk' hex hsuc'
                hab hrb] at hrun
              obtain ⟨Δ1, _, _, ht, _, _⟩ := run_steps_mono wf wf_id now rest _
              rw [hrun] at ht
              have hΔeq : Δ = [TraceEntry.executed step st.accumulated r] ++ Δ1 := by
                apply @List.append_cancel_left _ st.trace _ _
                rw [← hΔ, ht]
                simp
              have hWhead : writes_key step r key = false :=
                hW step st.accumulated r (by rw [hΔeq]; simp)
              have hkey1 : dget (store_outputs st.accumulated step r) key = ov := by
                rw [store_outputs_preserve st.accumulated step r key hWhead]
                exact hkey
              obtain ⟨hA, hB⟩ := ih _ out st' Δ1 hrun ht hkey1
                (fun s acc r2 hmem => hW s acc r2
                  (by rw [hΔeq]; exact List.mem_append_right _ hmem))
              refine ⟨?_, hB⟩
              intro s acc r2 hmem
              rw [hΔeq] at hmem
              rcases List.mem_append.mp hmem with hmem1 | hmem1
              · simp at hmem1
                rw [hmem1.2.1]
                exact hkey
              · exact hA s acc r2 hmem1

/-- Input resolution of a variable reference is the accumulated lookup of
the text between the reference delimiters, defaulting to None. -/
theorem resolveOne_ref (acc : List (String × Value)) (s p : String)
    (h1 : strStarts s "$\x7b" = true) (h2 : strEnds s "\x7d" = true)
    (h3 : strDropRight (strDrop s 2) 1 = p) :
    resolveOne acc (.vstr s) = (dget acc p).getD .vnone := by
  simp [resolveOne, h1, h2, h3]

/-- C9 (amended): a value stored by step A under declared output key y is
visible as the reference A.id ++ "." ++ y to the input resolution of
every step executed later in the run, as long as no other executed step
stores under that key; conversely, when the key is absent from the
initial accumulated data (the caller's params, which seed it, do not
contain it) and no executed step of the run stores under it — in
particular when A failed — every executed step resolves the reference to
None. -/
theorem claim_C9 :
    (∀ (wf : Workflow) (wf_id : String) (now : Nat) (st : RunState)
       (A : WorkflowStep) (mid : List WorkflowStep) (rA : AgentResult)
       (oA : Orchestrator) (d : List (String × Value)) (y : String) (v : Value)
       (out : RunOutcome) (st' : RunState) (Δ1 : List TraceEntry) (ref : String),
      step_skipped A st.accumulated = false →
      execute_step st.orch A st.accumulated wf.max_tokens_per_step now = (rA, oA) →
      rA.success = true → rA.data = .vdict d → ¬ d = [] →
      y ∈ A.outputs → dget d y = some v →
      run_steps wf wf_id now (A :: mid) st = (out, st') →
      st'.trace = st.trace ++ TraceEntry.executed A st.accumulated rA :: Δ1 →
      (∀ (s : WorkflowStep) (acc : List (String × Value)) (r : AgentResult),
        TraceEntry.executed s acc r ∈ Δ1 → writes_key s r (A.id ++ "." ++ y) = false) →
      strStarts ref "$\x7b" = true → strEnds ref "\x7d" = true →
      strDropRight (strDrop ref 2) 1 = A.id ++ "." ++ y →
      ∀ (s : WorkflowStep) (acc : List (String × Value)) (r : AgentResult),
        TraceEntry.executed s acc r ∈ Δ1 →
        dget acc (A.id ++ "." ++ y) = some v ∧
        resolveOne acc (.vstr ref) = v) ∧
    (∀ (wf : Workflow) (wf_id : String) (now : Nat) (st : RunState)
       (steps : List WorkflowStep) (out : RunOutcome) (st' : RunState)
       (Δ : List TraceEntry) (key ref : String),
      dget st.accumulated key = none →
      run_steps wf wf_id now steps st = (out, st') →
      st'.trace = st.trace ++ Δ →
      (∀ (s : WorkflowStep) (acc : List (String × Value)) (r : AgentResult),
        TraceEntry.executed s acc r ∈ Δ → writes_key s r key = false) →
      strStarts ref "$\x7b" = true → strEnds ref "\x7d" = true →
      strDropRight (strDrop ref 2) 1 = key →
      ∀ (s : WorkflowStep) (acc : List (String × Value)) (r : AgentResult),
        TraceEntry.executed s acc r ∈ Δ →
        dget acc key = none ∧
        resolveOne acc (.vstr ref) = .vnone) := by
  constructor
  · intro wf wf_id now st A mid rA oA d y v out st' Δ1 ref
      hsk hex hsuc hdata hne hy hv hrun hΔ hW hr1 hr2 hr3
    rw [run_steps_cons_success wf wf_id now A mid st rA oA hsk hex hsuc] at hrun
    have hkey1 : dget (store_outputs st.accumulated A rA) (A.id ++ "." ++ y) = some v :=
      store_outputs_writes st.accumulated A rA d y v hsuc hdata hne hy hv
    have ht1 : st'.trace
        = (st.trace ++ [TraceEntry.executed A st.accumulated rA]) ++ Δ1 := by
      rw [hΔ]
      simp
    obtain ⟨hA, _⟩ := run_steps_key_stable wf wf_id now (A.id ++ "." ++ y) (some v)
      mid _ out st' Δ1 hrun ht1 hkey1 hW
    intro s acc r hmem
    have h8 := hA s acc r hmem
    refine ⟨h8, ?_⟩
    rw [resolveOne_ref acc ref (A.id ++ "." ++ y) hr1 hr2 hr3, h8]
    rfl
  · intro wf wf_id now st steps out st' Δ key ref hkey hrun hΔ hW hr1 hr2 hr3
    obtain ⟨hA, _⟩ := run_steps_key_stable wf wf_id now key none
      steps st out st' Δ hrun hΔ hkey hW
    intro s acc r hmem
    have h8 := hA s acc r hmem
    refine ⟨h8, ?_⟩
    rw [resolveOne_ref acc ref key hr1 hr2 hr3, h8]
    rfl

/-- Step A: fails, continue policy, declares output y. -/
def stA9 : WorkflowStep :=
  { id := "A", block_id := "P", action := "parse", on_failure := "continue",
    outputs := ["y"] }

/-- Step B: echoes its resolved inputs; references A's output. -/
def stB9 : WorkflowStep :=
  { id := "B", block_id := "S", action := "save",
    inputs := [("k", .vstr "$\x7bA.y\x7d")] }

/-- The A-then-B workflow. -/
def wf_c9 : Workflow := { id := "w", name := "w", steps := [stA9, stB9] }

/-- The result recorded in a trace entry, if the step executed. -/
def trace_result : TraceEntry → Option AgentResult
  | .skipped _ => none
  | .executed _ _ r => some r

/-- Counterexample to C9 as stated: the accumulated data is seeded from
the caller's params, so with params containing the key A.y, step B's
input k resolves to the param value even though step A failed — the
claim requires nil whenever A failed. -/
theorem claim_C9_counterexample :
    boom_result.success = false ∧
    ((execute_workflow px_orch "w" (.ok wf_c9) [("A.y", .vstr "P")] "RUN" 0).trace.map
        trace_result)
      = [some boom_result,
         some (success_result (.vdict [("k", .vstr "P"), ("command", .vstr "save")]))] :=
  ⟨rfl, rfl⟩

/-- A producer worker returning a successful dict payload with a title. -/
def pr_agent : Agent :=
  { capabilities := ["parse"],
    run := fun _ => (0, .ok (success_result (.vdict [("title", .vstr "X")]))) }

/-- An orchestrator with the producer P2 and the echo worker S. -/
def c9w_orch : Orchestrator := { registry := [("P2", pr_agent), ("S", c5_echo)] }

/-- The producing step, declaring the title output. -/
def stP : WorkflowStep :=
  { id := "step1", block_id := "P2", action := "parse", outputs := ["title"] }

/-- The consuming step, referencing the produced title. -/
def stQ : WorkflowStep :=
  { id := "step2", block_id := "S", action := "save",
    inputs := [("title", .vstr "$\x7bstep1.title\x7d")] }

/-- The workflow of the two. -/
def wf_c9w : Workflow := { id := "w", name := "w", steps := [stP, stQ] }

/-- The producer's result. -/
def rP : AgentResult := success_result (.vdict [("title", .vstr "X")])

/-- The consumer's echoed result. -/
def rQ : AgentResult :=
  success_result (.vdict [("title", .vstr "X"), ("command", .vstr "save")])

/-- Closed instance of the amended C9: in the successful producer run, the
consumer's input resolution sees the stored value; in the failing run
without seeded params, the reference resolves to None. -/
theorem claim_C9_witness :
    (dget [("step1.title", .vstr "X")] (stP.id ++ "." ++ "title") = some (.vstr "X") ∧
     resolveOne [("step1.title", .vstr "X")] (.vstr "$\x7bstep1.title\x7d") = .vstr "X") ∧
    (dget ([] : List (String × Value)) "A.y" = none ∧
     resolveOne [] (.vstr "$\x7bA.y\x7d") = .vnone) := by
  constructor
  · refine claim_C9.1 wf_c9w "RUN" 0 { orch := c9w_orch } stP [stQ] rP
      (execute_step c9w_orch stP [] wf_c9w.max_tokens_per_step 0).2
      [("title", .vstr "X")] "title" (.vstr "X")
      (run_steps wf_c9w "RUN" 0 [stP, stQ] { orch := c9w_orch }).1
      (run_steps wf_c9w "RUN" 0 [stP, stQ] { orch := c9w_orch }).2
      [TraceEntry.executed stQ [("step1.title", .vstr "X")] rQ]
      "$\x7bstep1.title\x7d"
      rfl rfl rfl rfl (by simp) (List.mem_singleton.mpr rfl) rfl rfl rfl
      ?_ rfl rfl rfl stQ [("step1.title", .vstr "X")] rQ (List.mem_singleton.mpr rfl)
    intro s acc r hmem
    have h := List.mem_singleton.mp hmem
    injection h with hs hacc hr
    subst hs
    subst hr
    rfl
  · refine claim_C9.2 wf_c9 "RUN" 0 { orch := px_orch } [stA9, stB9]
      (run_steps wf_c9 "RUN" 0 [stA9, stB9] { orch := px_orch }).1
      (run_steps wf_c9 "RUN" 0 [stA9, stB9] { orch := px_orch }).2
      [TraceEntry.executed stA9 [] boom_result,
       TraceEntry.executed stB9 []
         (success_result (.vdict [("k", .vnone), ("command", .vstr "save")]))]
      "A.y" "$\x7bA.y\x7d"
      rfl rfl rfl ?_ rfl rfl rfl stB9 []
      (success_result (.vdict [("k", .vnone), ("command", .vstr "save")]))
      (List.mem_cons_of_mem _ (List.mem_singleton.mpr rfl))
    intro s acc r hmem
    rcases List.mem_cons.mp hmem with h | h
    · injection h with hs hacc hr
      subst hs
      subst hr
      rfl
    · have h2 := List.mem_singleton.mp h
      injection h2 with hs hacc hr
      subst hs
      subst hr
      rfl
